import Mathlib

/-!
Verification of the ecreceive ingestion pipeline (metno/ecmwf-dissemination).

The Lean definitions below are a shallow embedding of the Python sources:
  * src/ecreceive/__init__.py      (retry_n, parse_filename_timestamp)
  * src/ecreceive/checkpoint.py    (Checkpoint)
  * src/ecreceive/dataset.py       (Dataset, DatasetPublisher.process_file)
Files, the checkpoint file and log output are modelled explicitly; remote
catalog calls and the md5 hash are abstracted as parameters (oracles),
since they are external collaborators of the code under verification.
-/

namespace ECReceive

/-- Severity of a Python logging call (logging.info / logging.warning /
logging.error).  Log messages themselves are abstracted; only the severity
of each emitted line is modelled. -/
inductive LogLevel where
  | info
  | warning
  | error
deriving DecidableEq

/-- Outcome of one call of the operation passed to retry_n: it either
returns a value, raises an exception contained in the `exceptions` tuple,
or raises an exception that is not contained in it. -/
inductive Attempt (α : Type) where
  | success : α → Attempt α
  | failListed : Attempt α
  | failOther : Attempt α
deriving DecidableEq

/-- Result of running the retry loop of retry_n:
`ok a` models `return func()`, `gaveUpFalse` models `return False` after
giving up, `raised` models an unlisted exception propagating out, and
`outOfFuel` is a model artifact of bounding the unbounded Python loop. -/
inductive RetryResult (α : Type) where
  | ok : α → RetryResult α
  | gaveUpFalse : RetryResult α
  | raised : RetryResult α
  | outOfFuel : RetryResult α
deriving DecidableEq

/-- The `while True` loop of retry_n (src/ecreceive/__init__.py:73-89).
`op i` is the outcome of the call of `func` made when the Python variable
`tries` equals `i`.  The extra fuel argument bounds the number of loop
iterations so the Lean function is total; the Python loop has no such
bound, and exhausting fuel is reported as `outOfFuel`.  Returns the loop
result, the number of calls of `func` made, and the severities of the log
lines emitted (time.sleep is dropped; it has no observable effect here). -/
def retry_go {α : Type} (op : Nat → Attempt α) (warning error give_up : Int) :
    Nat → Nat → RetryResult α × Nat × List LogLevel
  | _, 0 => (RetryResult.outOfFuel, 0, [])
  | tries, fuel + 1 =>
    match op tries with
    | Attempt.success a => (RetryResult.ok a, 1, [])
    | Attempt.failOther => (RetryResult.raised, 1, [])
    | Attempt.failListed =>
      if 0 < give_up ∧ give_up ≤ (tries : Int) + 1 then
        (RetryResult.gaveUpFalse, 1, [LogLevel.error])
      else
        let lv := if error ≤ (tries : Int) + 1 then LogLevel.error
          else if warning ≤ (tries : Int) + 1 then LogLevel.warning
          else LogLevel.info
        let r := retry_go op warning error give_up (tries + 1) fuel
        (r.1, r.2.1 + 1, lv :: r.2.2)

/-- retry_n (src/ecreceive/__init__.py:66-89).  The leading `assert` on
the thresholds is modelled by `Except.error ()` (an AssertionError
propagating to the caller). -/
def retry_n {α : Type} (op : Nat → Attempt α) (warning error give_up : Int) (fuel : Nat) :
    Except Unit (RetryResult α × Nat × List LogLevel) :=
  if 0 < warning ∧ warning < error ∧ (give_up ≤ 0 ∨ error < give_up) then
    Except.ok (retry_go op warning error give_up 0 fuel)
  else
    Except.error ()

/-- An operation that raises a listed (retryable) exception on its first
`n` calls and afterwards returns `a`. -/
def failNThen {α : Type} (n : Nat) (a : α) : Nat → Attempt α :=
  fun i => if i < n then Attempt.failListed else Attempt.success a

/-- Forget the log trace of a retry_n run, keeping result and call count. -/
def dropLogs {α : Type} (r : Except Unit (RetryResult α × Nat × List LogLevel)) :
    Except Unit (RetryResult α × Nat) :=
  r.map (fun x => (x.1, x.2.1))

theorem retry_go_success {α : Type} (w e g : Int) (a : α) :
    ∀ (m t fuel : Nat), (0 < g → (t : Int) + m < g) → m < fuel →
      ((retry_go (failNThen (t + m) a) w e g t fuel).1 = RetryResult.ok a
        ∧ (retry_go (failNThen (t + m) a) w e g t fuel).2.1 = m + 1) := by
  intro m
  induction m with
  | zero =>
    intro t fuel _ hfuel
    obtain ⟨f, rfl⟩ : ∃ f, fuel = f + 1 := ⟨fuel - 1, by omega⟩
    have hop : failNThen t a t = Attempt.success a := by
      simp [failNThen]
    simp [retry_go, hop]
  | succ m ih =>
    intro t fuel hg hfuel
    obtain ⟨f, rfl⟩ : ∃ f, fuel = f + 1 := ⟨fuel - 1, by omega⟩
    have harg : t + (m + 1) = (t + 1) + m := by omega
    rw [harg]
    have hop : failNThen ((t + 1) + m) a t = Attempt.failListed := by
      simp only [failNThen, if_pos (show t < (t + 1) + m by omega)]
    have hnotgiveup : ¬(0 < g ∧ g ≤ (t : Int) + 1) := by
      intro ⟨h1, h2⟩
      have := hg h1
      push_cast at this
      omega
    have ihh := ih (t + 1) f (by intro h1; have := hg h1; push_cast at this ⊢; omega)
      (by omega)
    simp only [retry_go, hop, if_neg hnotgiveup]
    constructor
    · exact ihh.1
    · simp only [ihh.2]

theorem retry_go_gaveup {α : Type} (w e g : Int) (a : α) (n : Nat) :
    ∀ (m t fuel : Nat), 0 < g → g = (t : Int) + m → t + m ≤ n → m ≤ fuel → 1 ≤ m →
      ((retry_go (failNThen n a) w e g t fuel).1 = RetryResult.gaveUpFalse
        ∧ (retry_go (failNThen n a) w e g t fuel).2.1 = m) := by
  intro m
  induction m with
  | zero => intro t fuel _ _ _ _ h; omega
  | succ m ih =>
    intro t fuel hg hge hn hfuel _
    obtain ⟨f, rfl⟩ : ∃ f, fuel = f + 1 := ⟨fuel - 1, by omega⟩
    have hop : failNThen n a t = Attempt.failListed := by
      simp only [failNThen, if_pos (show t < n by omega)]
    by_cases hm : m = 0
    · subst hm
      have hgiveup : 0 < g ∧ g ≤ (t : Int) + 1 := ⟨hg, by push_cast at hge; omega⟩
      simp [retry_go, hop, if_pos hgiveup]
    · have hnotgiveup : ¬(0 < g ∧ g ≤ (t : Int) + 1) := by
        intro ⟨_, h2⟩
        push_cast at hge
        omega
      have ihh := ih (t + 1) f hg (by push_cast; push_cast at hge; omega) (by omega)
        (by omega) (by omega)
      simp only [retry_go, hop, if_neg hnotgiveup]
      constructor
      · exact ihh.1
      · simp only [ihh.2]

theorem retry_go_neverending {α : Type} (w e g : Int) (hg : g ≤ 0) :
    ∀ (fuel t : Nat),
      ((retry_go (fun _ => (Attempt.failListed : Attempt α)) w e g t fuel).1
          = RetryResult.outOfFuel
        ∧ (retry_go (fun _ => (Attempt.failListed : Attempt α)) w e g t fuel).2.1 = fuel) := by
  intro fuel
  induction fuel with
  | zero => intro t; simp [retry_go]
  | succ f ih =>
    intro t
    have hnotgiveup : ¬(0 < g ∧ g ≤ (t : Int) + 1) := by
      intro ⟨h1, _⟩; omega
    have ihh := ih (t + 1)
    simp only [retry_go, if_neg hnotgiveup]
    constructor
    · exact ihh.1
    · simp only [ihh.2]

/-- C2: under the precondition error > warning > 0 and (give_up ≤ 0 or
give_up > error), retry_n with an operation that raises a listed error
exactly n times and then succeeds calls it n+1 times and returns its
result when n < give_up > 0; calls it exactly give_up times and reports
failure by returning (gaveUpFalse, not an exception) when n ≥ give_up > 0;
an unlisted exception propagates after a single call; and with
give_up ≤ 0 it never gives up: the fail-n-times operation still succeeds
after n+1 calls for every n, and an always-failing operation is still
being retried when any amount of fuel runs out. -/
theorem claim_c2_retry_semantics {α : Type} (w e g : Int) (n fuel : Nat) (a : α)
    (hw : 0 < w) (hwe : w < e) (hge : g ≤ 0 ∨ e < g) :
    (0 < g → (n : Int) < g → n < fuel →
      dropLogs (retry_n (failNThen n a) w e g fuel) = Except.ok (RetryResult.ok a, n + 1))
    ∧ (0 < g → g ≤ (n : Int) → g.toNat ≤ fuel →
      dropLogs (retry_n (failNThen n a) w e g fuel)
        = Except.ok (RetryResult.gaveUpFalse, g.toNat))
    ∧ (0 < fuel →
      dropLogs (retry_n (fun _ => (Attempt.failOther : Attempt α)) w e g fuel)
        = Except.ok (RetryResult.raised, 1))
    ∧ (g ≤ 0 → n < fuel →
      dropLogs (retry_n (failNThen n a) w e g fuel) = Except.ok (RetryResult.ok a, n + 1))
    ∧ (g ≤ 0 →
      dropLogs (retry_n (fun _ => (Attempt.failListed : Attempt α)) w e g fuel)
        = Except.ok (RetryResult.outOfFuel, fuel)) := by
  have hpre : 0 < w ∧ w < e ∧ (g ≤ 0 ∨ e < g) := ⟨hw, hwe, hge⟩
  refine ⟨?_, ?_, ?_, ?_, ?_⟩
  · intro hgpos hlt hfuel
    have h := retry_go_success (α := α) w e g a n 0 fuel (by intro _; push_cast; omega) hfuel
    simp only [Nat.zero_add] at h
    simp [retry_n, if_pos hpre, dropLogs, Except.map, h.1, h.2]
  · intro hgpos hle hfuel
    have h := retry_go_gaveup (α := α) w e g a n g.toNat 0 fuel hgpos (by omega)
      (by omega) hfuel (by omega)
    simp [retry_n, if_pos hpre, dropLogs, Except.map, h.1, h.2]
  · intro hfuel
    obtain ⟨f, rfl⟩ : ∃ f, fuel = f + 1 := ⟨fuel - 1, by omega⟩
    simp [retry_n, if_pos hpre, dropLogs, Except.map, retry_go]
  · intro hgle hfuel
    have h := retry_go_success (α := α) w e g a n 0 fuel (by intro h1; omega) hfuel
    simp only [Nat.zero_add] at h
    simp [retry_n, if_pos hpre, dropLogs, Except.map, h.1, h.2]
  · intro hgle
    have h := retry_go_neverending (α := α) w e g hgle fuel 0
    simp [retry_n, if_pos hpre, dropLogs, Except.map, h.1, h.2]

/-- Witness for C2 at concrete inputs: warning 1, error 3, give_up 5,
an operation failing twice then returning true, fuel 10. -/
theorem claim_c2_retry_semantics_witness :
    (0 < (5 : Int) → ((2 : Nat) : Int) < 5 → 2 < 10 →
      dropLogs (retry_n (failNThen 2 true) 1 3 5 10) = Except.ok (RetryResult.ok true, 2 + 1))
    ∧ (0 < (5 : Int) → (5 : Int) ≤ ((2 : Nat) : Int) → (5 : Int).toNat ≤ 10 →
      dropLogs (retry_n (failNThen 2 true) 1 3 5 10)
        = Except.ok (RetryResult.gaveUpFalse, (5 : Int).toNat))
    ∧ (0 < 10 →
      dropLogs (retry_n (fun _ => (Attempt.failOther : Attempt Bool)) 1 3 5 10)
        = Except.ok (RetryResult.raised, 1))
    ∧ ((5 : Int) ≤ 0 → 2 < 10 →
      dropLogs (retry_n (failNThen 2 true) 1 3 5 10) = Except.ok (RetryResult.ok true, 2 + 1))
    ∧ ((5 : Int) ≤ 0 →
      dropLogs (retry_n (fun _ => (Attempt.failListed : Attempt Bool)) 1 3 5 10)
        = Except.ok (RetryResult.outOfFuel, 10)) :=
  claim_c2_retry_semantics 1 3 5 2 10 true (by decide) (by decide) (Or.inr (by decide))

/-! ## Checkpoint store (src/ecreceive/checkpoint.py)

The Python dict `self._states` is modelled as an association list with
unique keys, kept sorted by key so that its canonical order agrees with
`json.dumps(..., sort_keys=True)`. -/

/-- Lookup in the states dict. -/
def storeGet : List (String × Nat) → String → Option Nat
  | [], _ => none
  | (k1, v1) :: rest, k => if k = k1 then some v1 else storeGet rest k

/-- Insert-or-replace in the states dict (sorted insertion keeps the
canonical order used by the JSON dump). -/
def storeSet : List (String × Nat) → String → Nat → List (String × Nat)
  | [], k, v => [(k, v)]
  | (k1, v1) :: rest, k, v =>
    if k = k1 then (k, v) :: rest
    else if k < k1 then (k, v) :: (k1, v1) :: rest
    else (k1, v1) :: storeSet rest k v

/-- `del states[key]` — remove a key from the states dict. -/
def storeDel (s : List (String × Nat)) (k : String) : List (String × Nat) :=
  s.filter (fun p => p.1 ≠ k)

/-- x & ~s for nonnegative Python ints: clear in x every bit set in s
(x ^^^ (x &&& s) agrees with x & ~s because x &&& s only has bits of x). -/
def andNot (x s : Nat) : Nat := x ^^^ (x &&& s)

/-- Checkpoint flag constants (src/ecreceive/checkpoint.py:5-8). -/
def CHECKPOINT_DATASET_NOFLAGS : Nat := 0

def CHECKPOINT_DATASET_EXISTS : Nat := 1

def CHECKPOINT_DATASET_MOVED : Nat := 2

def CHECKPOINT_DATASET_LOCKED : Nat := 4

/-- The Checkpoint object: the in-memory states dict plus the state file
(`none` = the file does not exist, `some s` = its contents).  Writing the
state file is assumed to succeed (the IOError branch of `save` only logs
and re-raises; no claim concerns it). -/
structure Checkpoint where
  states : List (String × Nat)
  disk : Option String
deriving DecidableEq

theorem storeGet_set_self (k : String) (v : Nat) :
    ∀ s : List (String × Nat), storeGet (storeSet s k v) k = some v := by
  intro s
  induction s with
  | nil => simp [storeSet, storeGet]
  | cons p rest ih =>
    obtain ⟨k1, v1⟩ := p
    by_cases h : k = k1
    · simp [storeSet, storeGet, h]
    · by_cases h2 : k < k1
      · simp [storeSet, storeGet, h, h2]
      · simp [storeSet, storeGet, h, h2, ih]

theorem storeGet_set_other (k k2 : String) (v : Nat) (hne : k2 ≠ k) :
    ∀ s : List (String × Nat), storeGet (storeSet s k v) k2 = storeGet s k2 := by
  intro s
  induction s with
  | nil => simp [storeSet, storeGet, hne]
  | cons p rest ih =>
    obtain ⟨k1, v1⟩ := p
    by_cases h : k = k1
    · subst h
      simp [storeSet, storeGet, hne]
    · by_cases h2 : k < k1
      · simp [storeSet, storeGet, h, h2, hne]
      · by_cases h3 : k2 = k1
        · simp [storeSet, storeGet, h, h2, h3]
        · simp [storeSet, storeGet, h, h2, h3, ih]

theorem mem_keys_storeSet (k : String) (v : Nat) :
    ∀ s : List (String × Nat), k ∈ (storeSet s k v).map Prod.fst := by
  intro s
  induction s with
  | nil => simp [storeSet]
  | cons p rest ih =>
    obtain ⟨k1, v1⟩ := p
    by_cases h : k = k1
    · simp [storeSet, h]
    · by_cases h2 : k < k1
      · simp [storeSet, h, h2]
      · rw [show storeSet ((k1, v1) :: rest) k v = (k1, v1) :: storeSet rest k v from by
          simp [storeSet, h, h2]]
        simp only [List.map_cons, List.mem_cons]
        exact Or.inr ih

theorem storeGet_eq_none_of_not_mem (k : String) :
    ∀ s : List (String × Nat), k ∉ s.map Prod.fst → storeGet s k = none := by
  intro s
  induction s with
  | nil => simp [storeGet]
  | cons p rest ih =>
    obtain ⟨k1, v1⟩ := p
    intro h
    simp only [List.map_cons, List.mem_cons] at h
    push_neg at h
    simp [storeGet, h.1, ih h.2]

theorem not_mem_of_storeGet_eq_none (k : String) :
    ∀ s : List (String × Nat), storeGet s k = none → k ∉ s.map Prod.fst := by
  intro s
  induction s with
  | nil => simp
  | cons p rest ih =>
    obtain ⟨k1, v1⟩ := p
    intro h
    simp only [storeGet] at h
    by_cases he : k = k1
    · simp [he] at h
    · rw [if_neg he] at h
      simp only [List.map_cons, List.mem_cons]
      push_neg
      exact ⟨he, ih h⟩

theorem not_mem_keys_storeDel (s : List (String × Nat)) (k : String) :
    k ∉ (storeDel s k).map Prod.fst := by
  intro h
  rw [List.mem_map] at h
  obtain ⟨p, hp, hk⟩ := h
  rw [storeDel, List.mem_filter] at hp
  simp [hk] at hp

/-! Bit-level helper lemmas for the flag arithmetic. -/

theorem andNot_and_self (x f : Nat) : andNot x f &&& f = 0 := by
  apply Nat.eq_of_testBit_eq
  intro i
  simp only [andNot, Nat.testBit_and, Nat.testBit_xor, Nat.zero_testBit]
  cases x.testBit i <;> cases f.testBit i <;> rfl

theorem or_and_self (x f : Nat) : (x ||| f) &&& f = f := by
  apply Nat.eq_of_testBit_eq
  intro i
  simp only [Nat.testBit_and, Nat.testBit_or]
  cases x.testBit i <;> cases f.testBit i <;> rfl

theorem and_or_of_and_eq_zero (x f g : Nat) (h : x &&& f = 0) :
    (x ||| g) &&& f = g &&& f := by
  apply Nat.eq_of_testBit_eq
  intro i
  have hx : (x.testBit i && f.testBit i) = false := by
    have h2 := congrArg (fun n => Nat.testBit n i) h
    simp only [Nat.testBit_and, Nat.zero_testBit] at h2
    exact h2
  simp only [Nat.testBit_and, Nat.testBit_or]
  cases hb : x.testBit i <;> cases hc : f.testBit i <;> simp_all

theorem andNot_of_and_eq_zero (x f : Nat) (h : x &&& f = 0) : andNot x f = x := by
  simp [andNot, h]

theorem andNot_or_distrib (x y f : Nat) : andNot (x ||| y) f = andNot x f ||| andNot y f := by
  apply Nat.eq_of_testBit_eq
  intro i
  simp only [andNot, Nat.testBit_and, Nat.testBit_xor, Nat.testBit_or]
  cases x.testBit i <;> cases y.testBit i <;> cases f.testBit i <;> rfl

/-! ## JSON layer

`dumps` models `json.dumps(states, sort_keys=True, indent=4,
separators=(',', ': '))` for the documents Checkpoint.save produces
(a JSON object mapping strings to nonnegative integers); the states dict
is already in sorted canonical order, so no extra sort appears here.
`loadsL` models `json.loads` restricted to the same document class:
object of string keys (no escape sequences) and nonnegative integer
values.  A parse failure models the ValueError json.loads raises. -/

/-- The whitespace characters JSON (and json.loads) skips. -/
def isWsChar (c : Char) : Bool :=
  c == ' ' || c == '\n' || c == '\t' || c == '\r'

/-- Drop leading JSON whitespace. -/
def skipWs : List Char → List Char
  | [] => []
  | c :: rest => if isWsChar c then skipWs rest else c :: rest

/-- Numeric value of a decimal digit character. -/
def digitVal (c : Char) : Nat := c.toNat - 48

/-- Consume leading decimal digits, accumulating their value. -/
def parseNatAcc (acc : Nat) : List Char → Nat × List Char
  | [] => (acc, [])
  | c :: rest =>
    if c.isDigit then parseNatAcc (acc * 10 + digitVal c) rest else (acc, c :: rest)

/-- Parse a nonnegative decimal integer (at least one digit). -/
def parseNatL (l : List Char) : Option (Nat × List Char) :=
  match l with
  | [] => none
  | c :: _ => if c.isDigit then some (parseNatAcc 0 l) else none

/-- Parse the characters of a JSON string key up to the closing quote.
Escape sequences are not modelled (Checkpoint keys are dataset
filenames, which contain neither quotes nor backslashes). -/
def parseKeyChars : List Char → Option (List Char × List Char)
  | [] => none
  | c :: rest =>
    if c = '"' then some ([], rest)
    else if c = '\\' then none
    else
      match parseKeyChars rest with
      | some (ks, r) => some (c :: ks, r)
      | none => none

/-- Parse the comma-separated members of a nonempty JSON object, ending
at the closing brace.  The input starts at the first key's opening
quote; fuel bounds the recursion. -/
def parsePairs : Nat → List Char → Option (List (String × Nat) × List Char)
  | 0, _ => none
  | fuel + 1, l =>
    match l with
    | [] => none
    | c :: rest =>
      if c = '"' then
        match parseKeyChars rest with
        | none => none
        | some (ks, r1) =>
          match skipWs r1 with
          | [] => none
          | c2 :: r3 =>
            if c2 = ':' then
              match parseNatL (skipWs r3) with
              | none => none
              | some (v, r5) =>
                match skipWs r5 with
                | [] => none
                | c3 :: r7 =>
                  if c3 = ',' then
                    match parsePairs fuel (skipWs r7) with
                    | some (ps, r8) => some ((String.mk ks, v) :: ps, r8)
                    | none => none
                  else if c3 = '}' then some ([(String.mk ks, v)], r7)
                  else none
            else none
      else none

/-- Parse a JSON object document. -/
def parseObj (l : List Char) : Option (List (String × Nat) × List Char) :=
  match skipWs l with
  | [] => none
  | c :: rest =>
    if c = '{' then
      match skipWs rest with
      | [] => none
      | c2 :: r2 =>
        if c2 = '}' then some ([], r2)
        else parsePairs ((c2 :: r2).length + 1) (c2 :: r2)
    else none

/-- json.loads on a character list: a full object document followed only
by whitespace; anything else (including a whitespace-only document)
raises ValueError, modelled as `none`. -/
def loadsL (l : List Char) : Option (List (String × Nat)) :=
  match parseObj l with
  | some (ps, rest) => if skipWs rest = [] then some ps else none
  | none => none

/-- Decimal digits of n, least significant first (empty for 0). -/
def natDecRev : Nat → List Char
  | 0 => []
  | n + 1 => Nat.digitChar ((n + 1) % 10) :: natDecRev ((n + 1) / 10)
decreasing_by exact Nat.div_lt_self (Nat.succ_pos n) (by decide)

/-- Decimal rendering of a nonnegative integer. -/
def natDecChars (n : Nat) : List Char :=
  if n = 0 then ['0'] else (natDecRev n).reverse

/-- One member line of the dumped object: 4-space indent, quoted key,
": " separator, decimal value. -/
def entryChars (k : String) (v : Nat) : List Char :=
  ' ' :: ' ' :: ' ' :: ' ' :: '"' :: (k.data ++ '"' :: ':' :: ' ' :: natDecChars v)

/-- The member lines of the dumped object, joined by ",\n". -/
def dumpEntriesChars : List (String × Nat) → List Char
  | [] => []
  | [(k, v)] => entryChars k v
  | (k, v) :: p :: rest => entryChars k v ++ ',' :: '\n' :: dumpEntriesChars (p :: rest)

/-- Characters of `json.dumps(states, sort_keys=True, indent=4,
separators=(',', ': '))`. -/
def dumpsChars (s : List (String × Nat)) : List Char :=
  match s with
  | [] => ['{', '}']
  | _ => '{' :: '\n' :: (dumpEntriesChars s ++ '\n' :: ['}'])

/-- json.dumps of the states dict, as a string. -/
def dumps (s : List (String × Nat)) : String := String.mk (dumpsChars s)

/-- A key the JSON model round-trips: no quote, no backslash (dataset
filenames satisfy this). -/
def safeKey (k : String) : Prop := ∀ c ∈ k.data, c ≠ '"' ∧ c ≠ '\\'

instance (k : String) : Decidable (safeKey k) := by
  unfold safeKey
  infer_instance

/-- All keys of a states dict are safe. -/
def storeSafe (s : List (String × Nat)) : Prop := ∀ p ∈ s, safeKey p.1

instance (s : List (String × Nat)) : Decidable (storeSafe s) := by
  unfold storeSafe
  infer_instance

/-- Head of the character list is a decimal digit. -/
def headDigit : List Char → Bool
  | [] => false
  | c :: _ => c.isDigit

theorem string_mk_data (k : String) : String.mk k.data = k := rfl

theorem skipWs_cons_of_ws {c : Char} (h : isWsChar c = true) (l : List Char) :
    skipWs (c :: l) = skipWs l := by
  simp [skipWs, h]

theorem skipWs_cons_of_not_ws {c : Char} (h : isWsChar c = false) (l : List Char) :
    skipWs (c :: l) = c :: l := by
  simp [skipWs, h]

theorem skipWs_length_le : ∀ l : List Char, (skipWs l).length ≤ l.length := by
  intro l
  induction l with
  | nil => simp [skipWs]
  | cons c rest ih =>
    by_cases h : isWsChar c = true
    · rw [skipWs_cons_of_ws h]
      simp only [List.length_cons]
      omega
    · rw [skipWs_cons_of_not_ws (by simpa using h)]

theorem isWsChar_eq_false_of_isDigit {c : Char} (h : c.isDigit = true) :
    isWsChar c = false := by
  simp only [isWsChar, Bool.or_eq_false_iff, beq_eq_false_iff_ne]
  refine ⟨⟨⟨?_, ?_⟩, ?_⟩, ?_⟩ <;> rintro rfl <;> simp at h

theorem parseNatAcc_digits :
    ∀ (ds : List Char) (acc : Nat) (rest : List Char),
      (∀ c ∈ ds, c.isDigit = true) → headDigit rest = false →
      parseNatAcc acc (ds ++ rest)
        = (List.foldl (fun a c => a * 10 + digitVal c) acc ds, rest) := by
  intro ds
  induction ds with
  | nil =>
    intro acc rest _ hrest
    cases rest with
    | nil => simp [parseNatAcc]
    | cons c r =>
      simp only [headDigit] at hrest
      simp [parseNatAcc, hrest]
  | cons d ds ih =>
    intro acc rest hds hrest
    have hd : d.isDigit = true := hds d (by simp)
    simp only [List.cons_append, parseNatAcc, hd, if_true, List.foldl_cons]
    exact ih _ rest (fun c hc => hds c (by simp [hc])) hrest

theorem digitVal_digitChar {d : Nat} (h : d < 10) : digitVal (Nat.digitChar d) = d := by
  interval_cases d <;> rfl

theorem isDigit_digitChar {d : Nat} (h : d < 10) : (Nat.digitChar d).isDigit = true := by
  interval_cases d <;> rfl

theorem natDecRev_digits : ∀ n : Nat, ∀ c ∈ natDecRev n, c.isDigit = true := by
  intro n
  induction n using Nat.strong_induction_on with
  | _ n ih =>
    match n with
    | 0 => simp [natDecRev]
    | m + 1 =>
      intro c hc
      rw [natDecRev] at hc
      rcases List.mem_cons.mp hc with h | h
      · subst h
        exact isDigit_digitChar (Nat.mod_lt _ (by decide))
      · exact ih ((m + 1) / 10) (Nat.div_lt_self (Nat.succ_pos m) (by decide)) c h

theorem natDecChars_digits : ∀ (n : Nat), ∀ c ∈ natDecChars n, c.isDigit = true := by
  intro n c hc
  by_cases h : n = 0
  · simp [natDecChars, h] at hc
    subst hc
    rfl
  · simp only [natDecChars, if_neg h, List.mem_reverse] at hc
    exact natDecRev_digits n c hc

theorem natDecRev_foldl :
    ∀ n acc, List.foldl (fun a c => a * 10 + digitVal c) acc (natDecRev n).reverse
      = acc * 10 ^ (natDecRev n).length + n := by
  intro n
  induction n using Nat.strong_induction_on with
  | _ n ih =>
    intro acc
    match n with
    | 0 => simp [natDecRev]
    | m + 1 =>
      rw [natDecRev, List.reverse_cons, List.foldl_append]
      rw [ih ((m + 1) / 10) (Nat.div_lt_self (Nat.succ_pos m) (by decide))]
      simp only [List.foldl_cons, List.foldl_nil, List.length_cons]
      rw [digitVal_digitChar (Nat.mod_lt _ (by decide))]
      have hdm : (m + 1) / 10 * 10 + (m + 1) % 10 = m + 1 := by omega
      set M := 10 ^ (natDecRev ((m + 1) / 10)).length with hM
      calc (acc * M + (m + 1) / 10) * 10 + (m + 1) % 10
          = acc * (M * 10) + ((m + 1) / 10 * 10 + (m + 1) % 10) := by ring
        _ = acc * 10 ^ ((natDecRev ((m + 1) / 10)).length + 1) + (m + 1) := by
            rw [hdm, pow_succ]

theorem natDecChars_foldl (n : Nat) :
    List.foldl (fun a c => a * 10 + digitVal c) 0 (natDecChars n) = n := by
  by_cases h : n = 0
  · subst h
    rfl
  · simp only [natDecChars, if_neg h]
    rw [natDecRev_foldl n 0]
    simp

theorem natDecChars_ne_nil (n : Nat) : natDecChars n ≠ [] := by
  by_cases h : n = 0
  · simp [natDecChars, h]
  · simp only [natDecChars, if_neg h]
    intro hrev
    rw [List.reverse_eq_nil_iff] at hrev
    match n, h with
    | m + 1, _ => simp [natDecRev] at hrev

theorem parseNatL_natDecChars (n : Nat) (rest : List Char) (hrest : headDigit rest = false) :
    parseNatL (natDecChars n ++ rest) = some (n, rest) := by
  obtain ⟨d, ds, hds⟩ : ∃ d ds, natDecChars n = d :: ds := by
    cases hnd : natDecChars n with
    | nil => exact absurd hnd (natDecChars_ne_nil n)
    | cons d ds => exact ⟨d, ds, rfl⟩
  have hdig : d.isDigit = true := natDecChars_digits n d (by simp [hds])
  have hacc := parseNatAcc_digits (natDecChars n) 0 rest (natDecChars_digits n) hrest
  rw [natDecChars_foldl n] at hacc
  rw [hds, List.cons_append] at hacc
  rw [hds, List.cons_append, parseNatL]
  simp only [hdig, if_true, hacc]

theorem parseKeyChars_safe :
    ∀ (ks : List Char) (rest : List Char), (∀ c ∈ ks, c ≠ '"' ∧ c ≠ '\\') →
      parseKeyChars (ks ++ '"' :: rest) = some (ks, rest) := by
  intro ks
  induction ks with
  | nil => intro rest _; simp [parseKeyChars]
  | cons c ks ih =>
    intro rest hsafe
    have hc := hsafe c (by simp)
    simp only [List.cons_append, parseKeyChars, if_neg hc.1, if_neg hc.2, List.append_eq]
    rw [ih rest (fun c2 hc2 => hsafe c2 (by simp [hc2]))]

theorem skipWs_entry (k : String) (v : Nat) (tail : List Char) :
    skipWs (entryChars k v ++ tail)
      = '"' :: (k.data ++ '"' :: ':' :: ' ' :: (natDecChars v ++ tail)) := by
  simp only [entryChars, List.cons_append, List.append_assoc]
  rw [skipWs_cons_of_ws (by decide), skipWs_cons_of_ws (by decide),
    skipWs_cons_of_ws (by decide), skipWs_cons_of_ws (by decide),
    skipWs_cons_of_not_ws (by decide)]

theorem skipWs_natDec (v : Nat) (tail : List Char) :
    skipWs (natDecChars v ++ tail) = natDecChars v ++ tail := by
  obtain ⟨d, ds, hds⟩ : ∃ d ds, natDecChars v = d :: ds := by
    cases hnd : natDecChars v with
    | nil => exact absurd hnd (natDecChars_ne_nil v)
    | cons d ds => exact ⟨d, ds, rfl⟩
  rw [hds, List.cons_append]
  exact skipWs_cons_of_not_ws
    (isWsChar_eq_false_of_isDigit (natDecChars_digits v d (by simp [hds]))) _

theorem parsePairs_cons_eq (k : String) (v : Nat) (tail : List Char) (f : Nat)
    (hsafe : safeKey k) (hd : headDigit tail = false) :
    parsePairs (f + 1) ('"' :: (k.data ++ '"' :: ':' :: ' ' :: (natDecChars v ++ tail)))
      = match skipWs tail with
        | [] => none
        | c3 :: r7 =>
          if c3 = ',' then
            match parsePairs f (skipWs r7) with
            | some (ps, r8) => some ((k, v) :: ps, r8)
            | none => none
          else if c3 = '}' then some ([(k, v)], r7)
          else none := by
  rw [parsePairs]
  simp only [if_pos rfl]
  rw [parseKeyChars_safe k.data (':' :: ' ' :: (natDecChars v ++ tail)) hsafe]
  simp only
  rw [skipWs_cons_of_not_ws (by decide)]
  simp only [if_pos rfl]
  rw [skipWs_cons_of_ws (by decide), skipWs_natDec]
  rw [parseNatL_natDecChars v tail hd]
  simp [string_mk_data]

theorem parsePairs_dump :
    ∀ (entries : List (String × Nat)) (r0 : List Char) (fuel : Nat),
      entries ≠ [] → storeSafe entries → entries.length < fuel →
      parsePairs fuel (skipWs (dumpEntriesChars entries ++ '\n' :: '}' :: r0))
        = some (entries, r0) := by
  intro entries
  induction entries with
  | nil => intro r0 fuel h _ _; exact absurd rfl h
  | cons e es ih =>
    obtain ⟨k, v⟩ := e
    intro r0 fuel _ hsafe hfuel
    obtain ⟨f, rfl⟩ : ∃ f, fuel = f + 1 := ⟨fuel - 1, by omega⟩
    have hk : safeKey k := hsafe (k, v) (by simp)
    cases es with
    | nil =>
      rw [show dumpEntriesChars [(k, v)] = entryChars k v from rfl]
      rw [skipWs_entry]
      rw [parsePairs_cons_eq k v ('\n' :: '}' :: r0) f hk (by rfl)]
      rw [skipWs_cons_of_ws (by decide), skipWs_cons_of_not_ws (by decide)]
      simp
    | cons p ps =>
      rw [show dumpEntriesChars ((k, v) :: p :: ps)
          = entryChars k v ++ ',' :: '\n' :: dumpEntriesChars (p :: ps) from rfl]
      rw [List.append_assoc, List.cons_append, List.cons_append]
      rw [skipWs_entry]
      rw [parsePairs_cons_eq k v
        (',' :: '\n' :: (dumpEntriesChars (p :: ps) ++ '\n' :: '}' :: r0)) f hk (by rfl)]
      rw [skipWs_cons_of_not_ws (by decide)]
      simp only [if_pos rfl]
      rw [show skipWs ('\n' :: (dumpEntriesChars (p :: ps) ++ '\n' :: '}' :: r0))
          = skipWs (dumpEntriesChars (p :: ps) ++ '\n' :: '}' :: r0)
        from skipWs_cons_of_ws (by decide) _]
      rw [ih r0 f (by simp) (fun q hq => hsafe q (by simp [hq])) (by
        simp only [List.length_cons] at hfuel ⊢
        omega)]
      simp

theorem length_le_skipWs_dump :
    ∀ (entries : List (String × Nat)) (r0 : List Char), entries ≠ [] →
      entries.length ≤ (skipWs (dumpEntriesChars entries ++ '\n' :: '}' :: r0)).length := by
  intro entries
  induction entries with
  | nil => intro r0 h; exact absurd rfl h
  | cons e es ih =>
    obtain ⟨k, v⟩ := e
    intro r0 _
    cases es with
    | nil =>
      rw [show dumpEntriesChars [(k, v)] = entryChars k v from rfl, skipWs_entry]
      simp only [List.length_cons, List.length_nil]
      omega
    | cons p ps =>
      rw [show dumpEntriesChars ((k, v) :: p :: ps)
          = entryChars k v ++ ',' :: '\n' :: dumpEntriesChars (p :: ps) from rfl]
      rw [List.append_assoc, List.cons_append, List.cons_append]
      rw [skipWs_entry]
      have h1 := ih r0 (by simp)
      have h2 := skipWs_length_le (dumpEntriesChars (p :: ps) ++ '\n' :: '}' :: r0)
      simp only [List.length_cons, List.length_nil, List.length_append] at h1 h2 ⊢
      omega

theorem skipWs_dumpEntries_cons (e : String × Nat) (es : List (String × Nat))
    (tail : List Char) :
    ∃ X, skipWs (dumpEntriesChars (e :: es) ++ tail) = '"' :: X := by
  obtain ⟨k, v⟩ := e
  cases es with
  | nil =>
    exact ⟨_, by
      rw [show dumpEntriesChars [(k, v)] = entryChars k v from rfl, skipWs_entry]⟩
  | cons p ps =>
    exact ⟨_, by
      rw [show dumpEntriesChars ((k, v) :: p :: ps)
          = entryChars k v ++ ',' :: '\n' :: dumpEntriesChars (p :: ps) from rfl]
      rw [List.append_assoc, skipWs_entry]⟩

theorem loadsL_dumpsChars (s : List (String × Nat)) (hsafe : storeSafe s) :
    loadsL (dumpsChars s) = some s := by
  cases s with
  | nil => rfl
  | cons e es =>
    rw [show dumpsChars (e :: es)
        = '{' :: '\n' :: (dumpEntriesChars (e :: es) ++ '\n' :: '}' :: []) from rfl]
    rw [loadsL, parseObj]
    rw [skipWs_cons_of_not_ws (by decide)]
    simp only [if_pos rfl]
    rw [show skipWs ('\n' :: (dumpEntriesChars (e :: es) ++ '\n' :: '}' :: []))
        = skipWs (dumpEntriesChars (e :: es) ++ '\n' :: '}' :: [])
      from skipWs_cons_of_ws (by decide) _]
    obtain ⟨X, hX⟩ := skipWs_dumpEntries_cons e es ('\n' :: '}' :: [])
    rw [hX]
    simp only [if_neg (show ¬('"' = '}') by decide)]
    rw [← hX]
    rw [parsePairs_dump (e :: es) [] _ (by simp) hsafe (by
      have hlen := length_le_skipWs_dump (e :: es) [] (by simp)
      omega)]
    rfl

/-! ## Checkpoint operations (src/ecreceive/checkpoint.py:16-77) -/

/-- Checkpoint.save: serialize the states dict and write the state file.
The IOError branch only logs and re-raises; writing is assumed to
succeed here (no claim concerns an unwritable state file). -/
def Checkpoint.save (c : Checkpoint) : Checkpoint :=
  { c with disk := some (dumps c.states) }

/-- Checkpoint.load (src/ecreceive/checkpoint.py:30-38): a missing file
raises IOError, which is caught (empty dict); an empty file fails the
`if data:` check (empty dict); any other content is handed to
json.loads, whose ValueError is NOT caught and propagates. -/
def loadDisk (disk : Option String) : Except Unit (List (String × Nat)) :=
  match disk with
  | none => Except.ok []
  | some data =>
    if data = "" then Except.ok []
    else
      match loadsL data.data with
      | some st => Except.ok st
      | none => Except.error ()

/-- Checkpoint.__init__: record the path and load the state file. -/
def Checkpoint.init (disk : Option String) : Except Unit Checkpoint :=
  (loadDisk disk).map (fun st => { states := st, disk := disk })

/-- Checkpoint.get: value of a key, 0 when absent. -/
def Checkpoint.get (c : Checkpoint) (key : String) : Nat :=
  (storeGet c.states key).getD 0

/-- Checkpoint.add: insert the key with NOFLAGS when absent, OR the flag
in, and save. -/
def Checkpoint.add (c : Checkpoint) (key : String) (state : Nat) : Checkpoint :=
  Checkpoint.save { c with states := storeSet c.states key (c.get key ||| state) }

/-- Checkpoint.subtract: insert the key with NOFLAGS when absent, clear
the flag's bits, and save. -/
def Checkpoint.subtract (c : Checkpoint) (key : String) (state : Nat) : Checkpoint :=
  Checkpoint.save { c with states := storeSet c.states key (andNot (c.get key) state) }

/-- Checkpoint.lock: return false when LOCKED is already set, otherwise
set LOCKED and return true. -/
def Checkpoint.lock (c : Checkpoint) (key : String) : Checkpoint × Bool :=
  if c.get key &&& CHECKPOINT_DATASET_LOCKED ≠ 0 then (c, false)
  else (c.add key CHECKPOINT_DATASET_LOCKED, true)

/-- Checkpoint.unlock. -/
def Checkpoint.unlock (c : Checkpoint) (key : String) : Checkpoint :=
  c.subtract key CHECKPOINT_DATASET_LOCKED

/-- Checkpoint.unlock_all: reload the states from disk, then unlock
every key of the loaded dict. -/
def Checkpoint.unlock_all (c : Checkpoint) : Except Unit Checkpoint :=
  (loadDisk c.disk).map (fun st =>
    (st.map Prod.fst).foldl (fun acc k2 => acc.unlock k2)
      { states := st, disk := c.disk })

/-- Checkpoint.delete: remove the key if present and save. -/
def Checkpoint.delete (c : Checkpoint) (key : String) : Checkpoint :=
  if (storeGet c.states key).isSome then
    Checkpoint.save { c with states := storeDel c.states key }
  else c

/-- Checkpoint.keys. -/
def Checkpoint.keys (c : Checkpoint) : List String := c.states.map Prod.fst

theorem Checkpoint.get_add_self (c : Checkpoint) (k : String) (f : Nat) :
    (c.add k f).get k = c.get k ||| f := by
  simp [Checkpoint.add, Checkpoint.save, Checkpoint.get, storeGet_set_self]

theorem Checkpoint.get_add_other (c : Checkpoint) (k k2 : String) (f : Nat) (h : k2 ≠ k) :
    (c.add k f).get k2 = c.get k2 := by
  simp [Checkpoint.add, Checkpoint.save, Checkpoint.get, storeGet_set_other k k2 _ h]

theorem Checkpoint.get_subtract_self (c : Checkpoint) (k : String) (f : Nat) :
    (c.subtract k f).get k = andNot (c.get k) f := by
  simp [Checkpoint.subtract, Checkpoint.save, Checkpoint.get, storeGet_set_self]

theorem Checkpoint.get_subtract_other (c : Checkpoint) (k k2 : String) (f : Nat)
    (h : k2 ≠ k) : (c.subtract k f).get k2 = c.get k2 := by
  simp [Checkpoint.subtract, Checkpoint.save, Checkpoint.get, storeGet_set_other k k2 _ h]

theorem andNot_zero (f : Nat) : andNot 0 f = 0 := by
  simp [andNot]

theorem dumpsChars_ne_nil (s : List (String × Nat)) : dumpsChars s ≠ [] := by
  cases s <;> simp [dumpsChars]

theorem dumps_ne_empty (s : List (String × Nat)) : dumps s ≠ "" := by
  intro h
  exact dumpsChars_ne_nil s (congrArg String.data h)

theorem loadDisk_dumps (st : List (String × Nat)) (hsafe : storeSafe st) :
    loadDisk (some (dumps st)) = Except.ok st := by
  simp only [loadDisk, if_neg (dumps_ne_empty st)]
  rw [show (dumps st).data = dumpsChars st from rfl]
  rw [loadsL_dumpsChars st hsafe]

theorem storeSafe_storeSet (s : List (String × Nat)) (k : String) (v : Nat)
    (hs : storeSafe s) (hk : safeKey k) : storeSafe (storeSet s k v) := by
  induction s with
  | nil =>
    intro p hp
    simp only [storeSet, List.mem_singleton] at hp
    subst hp
    exact hk
  | cons q rest ih =>
    obtain ⟨k1, v1⟩ := q
    intro p hp
    by_cases h : k = k1
    · simp only [storeSet, if_pos h, List.mem_cons] at hp
      rcases hp with rfl | hp
      · exact hk
      · exact hs p (by simp [hp])
    · by_cases h2 : k < k1
      · simp only [storeSet, if_neg h, if_pos h2, List.mem_cons] at hp
        rcases hp with rfl | hp
        · exact hk
        · exact hs p (by simp [hp])
      · simp only [storeSet, if_neg h, if_neg h2, List.mem_cons] at hp
        rcases hp with rfl | hp
        · exact hs (k1, v1) (by simp)
        · exact ih (fun q hq => hs q (by simp [hq])) p hp

theorem storeSafe_storeDel (s : List (String × Nat)) (k : String)
    (hs : storeSafe s) : storeSafe (storeDel s k) := by
  intro p hp
  rw [storeDel, List.mem_filter] at hp
  exact hs p hp.1

theorem Checkpoint.unlock_keeps_clear (c : Checkpoint) (k k2 : String)
    (h : c.get k &&& CHECKPOINT_DATASET_LOCKED = 0) :
    (c.unlock k2).get k &&& CHECKPOINT_DATASET_LOCKED = 0 := by
  by_cases he : k = k2
  · subst he
    rw [Checkpoint.unlock, Checkpoint.get_subtract_self]
    exact andNot_and_self _ _
  · rw [Checkpoint.unlock, Checkpoint.get_subtract_other c k2 k _ he]
    exact h

theorem foldl_unlock_clears (ks : List String) :
    ∀ (c : Checkpoint) (k : String),
      k ∈ ks ∨ c.get k &&& CHECKPOINT_DATASET_LOCKED = 0 →
      (ks.foldl (fun acc k2 => acc.unlock k2) c).get k &&& CHECKPOINT_DATASET_LOCKED = 0 := by
  induction ks with
  | nil =>
    intro c k h
    rcases h with h | h
    · simp at h
    · simpa using h
  | cons k1 ks ih =>
    intro c k h
    rw [List.foldl_cons]
    by_cases he : k = k1
    · subst he
      refine ih _ k (Or.inr ?_)
      rw [Checkpoint.unlock, Checkpoint.get_subtract_self]
      exact andNot_and_self _ _
    · rcases h with h | h
      · rcases List.mem_cons.mp h with h1 | h1
        · exact absurd h1 he
        · exact ih _ k (Or.inl h1)
      · exact ih _ k (Or.inr (Checkpoint.unlock_keeps_clear c k k1 h))

/-- C6: lock(k) returns true and sets LOCKED when LOCKED is clear for k;
returns false with the Checkpoint (memory and disk) entirely unchanged
when LOCKED is set; a second lock before an unlock returns false; after
unlock(k), and after unlock_all() on a saved checkpoint, lock(k)
succeeds again. -/
theorem claim_c6_lock_exclusive (c : Checkpoint) (k : String) :
    (c.get k &&& CHECKPOINT_DATASET_LOCKED = 0 →
      c.lock k = (c.add k CHECKPOINT_DATASET_LOCKED, true)
        ∧ (c.lock k).1.get k &&& CHECKPOINT_DATASET_LOCKED ≠ 0)
    ∧ (c.get k &&& CHECKPOINT_DATASET_LOCKED ≠ 0 → c.lock k = (c, false))
    ∧ ((c.lock k).1.lock k).2 = false
    ∧ ((c.unlock k).lock k).2 = true
    ∧ (storeSafe c.states → c.disk = some (dumps c.states) →
        (c.unlock_all).map (fun c2 => (c2.lock k).2) = Except.ok true) := by
  have hlock_clear : c.get k &&& CHECKPOINT_DATASET_LOCKED = 0 →
      c.lock k = (c.add k CHECKPOINT_DATASET_LOCKED, true) := by
    intro h
    simp [Checkpoint.lock, h]
  refine ⟨fun h => ⟨hlock_clear h, ?_⟩, fun h => ?_, ?_, ?_, fun hsafe hdisk => ?_⟩
  · rw [hlock_clear h]
    rw [Checkpoint.get_add_self]
    rw [or_and_self]
    decide
  · simp [Checkpoint.lock, h]
  · by_cases h : c.get k &&& CHECKPOINT_DATASET_LOCKED = 0
    · rw [hlock_clear h]
      have h2 : (c.add k CHECKPOINT_DATASET_LOCKED).get k &&& CHECKPOINT_DATASET_LOCKED ≠ 0 := by
        rw [Checkpoint.get_add_self, or_and_self]
        decide
      simp [Checkpoint.lock, h2]
    · simp [Checkpoint.lock, h]
  · have h2 : (c.unlock k).get k &&& CHECKPOINT_DATASET_LOCKED = 0 := by
      rw [Checkpoint.unlock, Checkpoint.get_subtract_self]
      exact andNot_and_self _ _
    simp [Checkpoint.lock, h2]
  · rw [Checkpoint.unlock_all, hdisk, loadDisk_dumps c.states hsafe]
    have hclear := foldl_unlock_clears (c.states.map Prod.fst)
      { states := c.states, disk := c.disk } k
      (by
        by_cases hk : k ∈ c.states.map Prod.fst
        · exact Or.inl hk
        · refine Or.inr ?_
          have := storeGet_eq_none_of_not_mem k c.states hk
          simp [Checkpoint.get, this])
    rw [hdisk] at hclear
    simp only [Except.map]
    simp [Checkpoint.lock, hclear]

/-- Witness for C6 at a concrete checkpoint holding one unlocked key. -/
theorem claim_c6_lock_exclusive_witness :
    (Checkpoint.lock ⟨[("a", 1)], some (dumps [("a", 1)])⟩ "a"
        = (Checkpoint.add ⟨[("a", 1)], some (dumps [("a", 1)])⟩ "a"
            CHECKPOINT_DATASET_LOCKED, true)
      ∧ (Checkpoint.lock ⟨[("a", 1)], some (dumps [("a", 1)])⟩ "a").1.get "a"
          &&& CHECKPOINT_DATASET_LOCKED ≠ 0)
    ∧ ((Checkpoint.lock ⟨[("a", 1)], some (dumps [("a", 1)])⟩ "a").1.lock "a").2 = false
    ∧ ((Checkpoint.unlock ⟨[("a", 1)], some (dumps [("a", 1)])⟩ "a").lock "a").2 = true
    ∧ (Checkpoint.unlock_all ⟨[("a", 1)], some (dumps [("a", 1)])⟩).map
        (fun c2 => (c2.lock "a").2) = Except.ok true := by
  have h := claim_c6_lock_exclusive ⟨[("a", 1)], some (dumps [("a", 1)])⟩ "a"
  exact ⟨h.1 (by decide), h.2.2.1, h.2.2.2.1, h.2.2.2.2 (by decide) rfl⟩

/-- Counterexample to C7 as stated: a state file holding only a space
character does NOT load as an empty store; json.loads raises (only
IOError is caught by Checkpoint.load), so construction fails. -/
theorem claim_c7_counterexample_whitespace :
    loadDisk (some " ") = Except.error ()
    ∧ ¬ loadDisk (some " ") = Except.ok [] :=
  ⟨rfl, fun h => Except.noConfusion h⟩

/-- C7 (amended): loading a missing state file yields an empty store,
and loading an existing zero-byte file also yields an empty store; but a
whitespace-only file raises a JSON ValueError (the content is truthy, so
it reaches json.loads, and only IOError is caught).  Checkpoint state
round-trips: after add(k, f) on a key carrying no flags, reloading from
the persisted file yields get(k) == f; delete(k) removes k from keys()
and from a freshly reloaded store. -/
theorem claim_c7_checkpoint_loading (c : Checkpoint) (k : String) (f : Nat) :
    loadDisk none = Except.ok []
    ∧ loadDisk (some "") = Except.ok []
    ∧ loadDisk (some " ") = Except.error ()
    ∧ (storeSafe c.states → safeKey k → c.get k = 0 →
        (Checkpoint.init (c.add k f).disk).map (fun c2 => c2.get k) = Except.ok f)
    ∧ (storeSafe c.states →
        k ∉ (c.delete k).keys
          ∧ (c.disk = some (dumps c.states) →
              (Checkpoint.init (c.delete k).disk).map (fun c2 => decide (k ∈ c2.keys))
                = Except.ok false)) := by
  refine ⟨rfl, rfl, rfl, fun hsafe hk h0 => ?_, fun hsafe => ⟨?_, fun hdisk => ?_⟩⟩
  · have hdisk : (c.add k f).disk = some (dumps (storeSet c.states k (c.get k ||| f))) := rfl
    rw [hdisk, Checkpoint.init,
      loadDisk_dumps _ (storeSafe_storeSet c.states k _ hsafe hk)]
    simp only [Except.map, Checkpoint.get]
    rw [storeGet_set_self]
    rw [Checkpoint.get] at h0
    rw [h0]
    simp
  · by_cases hmem : (storeGet c.states k).isSome
    · simp only [Checkpoint.delete, if_pos hmem, Checkpoint.save, Checkpoint.keys]
      exact not_mem_keys_storeDel c.states k
    · simp only [Checkpoint.delete, if_neg hmem, Checkpoint.keys]
      refine not_mem_of_storeGet_eq_none k c.states ?_
      cases h : storeGet c.states k with
      | none => rfl
      | some v => rw [h] at hmem; simp at hmem
  · by_cases hmem : (storeGet c.states k).isSome
    · simp only [Checkpoint.delete, if_pos hmem, Checkpoint.save]
      rw [Checkpoint.init, loadDisk_dumps _ (storeSafe_storeDel c.states k hsafe)]
      simp only [Except.map, Checkpoint.keys]
      simp [not_mem_keys_storeDel c.states k]
    · simp only [Checkpoint.delete, if_neg hmem]
      rw [Checkpoint.init, hdisk, loadDisk_dumps _ hsafe]
      simp only [Except.map, Checkpoint.keys]
      have hnone : storeGet c.states k = none := by
        cases h : storeGet c.states k with
        | none => rfl
        | some v => rw [h] at hmem; simp at hmem
      simp [not_mem_of_storeGet_eq_none k c.states hnone]

/-- Witness for C7 at a concrete checkpoint: an empty store, key "a",
flag EXISTS. -/
theorem claim_c7_checkpoint_loading_witness :
    loadDisk none = Except.ok []
    ∧ loadDisk (some "") = Except.ok []
    ∧ loadDisk (some " ") = Except.error ()
    ∧ (Checkpoint.init ((Checkpoint.add ⟨[], some (dumps [])⟩ "a" 1).disk)).map
        (fun c2 => c2.get "a") = Except.ok 1
    ∧ ("a" ∉ (Checkpoint.delete ⟨[("a", 5)], some (dumps [("a", 5)])⟩ "a").keys
        ∧ (Checkpoint.init
            ((Checkpoint.delete ⟨[("a", 5)], some (dumps [("a", 5)])⟩ "a").disk)).map
            (fun c2 => decide ("a" ∈ c2.keys)) = Except.ok false) := by
  have h1 := claim_c7_checkpoint_loading ⟨[], some (dumps [])⟩ "a" 1
  have h2 := claim_c7_checkpoint_loading ⟨[("a", 5)], some (dumps [("a", 5)])⟩ "a" 1
  refine ⟨h1.1, h1.2.1, h1.2.2.1, h1.2.2.2.1 (by decide) (by decide) (by decide), ?_, ?_⟩
  · exact (h2.2.2.2.2 (by decide)).1
  · exact (h2.2.2.2.2 (by decide)).2 rfl

/-- C9: subtract(k, f) — and hence unlock(k) — on a key absent from the
store inserts the key with mask 0 and persists the store: afterwards
keys() contains k with get(k) == 0, both in memory and after a fresh
reload of the saved file. -/
theorem claim_c9_subtract_absent (c : Checkpoint) (k : String) (f : Nat)
    (habs : storeGet c.states k = none) :
    k ∉ c.keys
    ∧ k ∈ (c.subtract k f).keys
    ∧ (c.subtract k f).get k = 0
    ∧ (c.subtract k f).disk = some (dumps (c.subtract k f).states)
    ∧ c.unlock k = c.subtract k CHECKPOINT_DATASET_LOCKED
    ∧ (storeSafe c.states → safeKey k →
        (Checkpoint.init (c.subtract k f).disk).map
          (fun c2 => (decide (k ∈ c2.keys), c2.get k)) = Except.ok (true, 0)) := by
  have hval : andNot ((storeGet c.states k).getD 0) f = 0 := by
    rw [habs]
    exact andNot_zero f
  refine ⟨not_mem_of_storeGet_eq_none k c.states habs, ?_, ?_, rfl, rfl,
    fun hsafe hk => ?_⟩
  · simp only [Checkpoint.subtract, Checkpoint.save, Checkpoint.keys]
    exact mem_keys_storeSet k _ c.states
  · rw [Checkpoint.get_subtract_self]
    exact hval
  · have hdisk : (c.subtract k f).disk
        = some (dumps (storeSet c.states k (andNot (c.get k) f))) := rfl
    rw [hdisk, Checkpoint.init,
      loadDisk_dumps _ (storeSafe_storeSet c.states k _ hsafe hk)]
    simp only [Except.map, Checkpoint.keys, Checkpoint.get]
    rw [storeGet_set_self]
    simp [mem_keys_storeSet k _ c.states, hval]

/-- Witness for C9: unlocking the absent key "b" in a store holding only
"a" creates a durable zero-mask entry for "b". -/
theorem claim_c9_subtract_absent_witness :
    "b" ∉ (Checkpoint.keys ⟨[("a", 1)], some (dumps [("a", 1)])⟩)
    ∧ "b" ∈ (Checkpoint.subtract ⟨[("a", 1)], some (dumps [("a", 1)])⟩ "b" 4).keys
    ∧ (Checkpoint.subtract ⟨[("a", 1)], some (dumps [("a", 1)])⟩ "b" 4).get "b" = 0
    ∧ (Checkpoint.subtract ⟨[("a", 1)], some (dumps [("a", 1)])⟩ "b" 4).disk
        = some (dumps (Checkpoint.subtract ⟨[("a", 1)], some (dumps [("a", 1)])⟩
            "b" 4).states)
    ∧ Checkpoint.unlock ⟨[("a", 1)], some (dumps [("a", 1)])⟩ "b"
        = Checkpoint.subtract ⟨[("a", 1)], some (dumps [("a", 1)])⟩ "b"
            CHECKPOINT_DATASET_LOCKED
    ∧ (Checkpoint.init
        ((Checkpoint.subtract ⟨[("a", 1)], some (dumps [("a", 1)])⟩ "b" 4).disk)).map
        (fun c2 => (decide ("b" ∈ c2.keys), c2.get "b")) = Except.ok (true, 0) := by
  have h := claim_c9_subtract_absent ⟨[("a", 1)], some (dumps [("a", 1)])⟩ "b" 4
    (by decide)
  exact ⟨h.1, h.2.1, h.2.2.1, h.2.2.2.1, h.2.2.2.2.1,
    h.2.2.2.2.2 (by decide) (by decide)⟩

/-! ## Dataset model (src/ecreceive/dataset.py:11-257)

The filesystem is an association list from absolute paths to file
contents (the files are opened in text mode, so contents are character
strings).  The md5 hex digest of a file's contents is an external pure
function, passed as the parameter `hash`; the code only compares its
result against the sidecar, so no claim depends on its definition. -/

abbrev FileSys := List (String × String)

def fsGet : FileSys → String → Option String
  | [], _ => none
  | (p1, c1) :: rest, p => if p = p1 then some c1 else fsGet rest p

def fsSet : FileSys → String → String → FileSys
  | [], p, c => [(p, c)]
  | (p1, c1) :: rest, p, c =>
    if p = p1 then (p, c) :: rest else (p1, c1) :: fsSet rest p c

def fsDel (fs : FileSys) (p : String) : FileSys := fs.filter (fun q => q.1 ≠ p)

/-- os.path.exists. -/
def fsExists (fs : FileSys) (p : String) : Bool := (fsGet fs p).isSome

/-- Effect of a successful os.rename: the destination holds the source's
contents and the source is gone.  Whether the system call succeeds is
decided by an oracle at each call site. -/
def fsRename (fs : FileSys) (src dst : String) : FileSys :=
  match fsGet fs src with
  | none => fs
  | some content => fsSet (fsDel fs src) dst content

/-- os.path.basename: the part of the path after the last slash. -/
def basename (p : String) : String :=
  String.mk ((p.data.reverse.takeWhile (fun c => c ≠ '/')).reverse)

/-- os.path.join for a directory and a relative filename — the only
shape of join this code performs. -/
def joinPath (dir file : String) : String := dir ++ "/" ++ file

/-- The exception classes of src/ecreceive/exceptions.py raised by the
Dataset operations. -/
inductive ECErr where
  | ecreceive
  | invalidData
deriving DecidableEq

/-- The Dataset object: the derived pair of absolute paths
(src/ecreceive/dataset.py:17-27).  The lazily cached md5_key/md5_result
fields are omitted: each Dataset object in this code computes them at
most once, so `valid` below recomputes them statelessly. -/
structure Dataset where
  data_path : String
  md5_path : String
deriving DecidableEq

/-- Dataset.is_md5_path: path[-4:] == ".md5". -/
def is_md5_path (p : String) : Bool :=
  p.data.drop (p.data.length - 4) == ['.', 'm', 'd', '5']

/-- Dataset.__init__ via _derive_paths (src/ecreceive/dataset.py:29-60):
from an md5 path, the data path is path[:-4]; from a data path, the md5
path is path + ".md5". -/
def Dataset.init (path : String) : Dataset :=
  if is_md5_path path then
    { data_path := String.mk (path.data.take (path.data.length - 4)), md5_path := path }
  else
    { data_path := path, md5_path := path ++ ".md5" }

def Dataset.has_data_file (ds : Dataset) (fs : FileSys) : Bool :=
  fsExists fs ds.data_path

def Dataset.has_md5_file (ds : Dataset) (fs : FileSys) : Bool :=
  fsExists fs ds.md5_path

/-- Dataset.complete: both files exist. -/
def Dataset.complete (ds : Dataset) (fs : FileSys) : Bool :=
  ds.has_data_file fs && ds.has_md5_file fs

/-- Dataset.data_filename: basename of the data path. -/
def Dataset.data_filename (ds : Dataset) : String := basename ds.data_path

/-- Dataset.read_md5sum (src/ecreceive/dataset.py:95-108): f.read(32)
yields the first 32 characters of the sidecar; fewer than 32 raises
InvalidDataException; a missing sidecar raises ECReceiveException. -/
def Dataset.read_md5sum (ds : Dataset) (fs : FileSys) : Except ECErr String :=
  match fsGet fs ds.md5_path with
  | none => Except.error ECErr.ecreceive
  | some content =>
    let key := String.mk (content.data.take 32)
    if key.data.length ≠ 32 then Except.error ECErr.invalidData
    else Except.ok key

/-- Dataset.calculate_md5sum (src/ecreceive/dataset.py:110-125): stream
the data file through md5 and keep the hex digest. -/
def Dataset.calculate_md5sum (ds : Dataset) (hash : String → String)
    (fs : FileSys) : Except ECErr String :=
  match fsGet fs ds.data_path with
  | none => Except.error ECErr.ecreceive
  | some content => Except.ok (hash content)

/-- Dataset.valid (src/ecreceive/dataset.py:127-135): the sidecar's
32-character key equals the computed digest. -/
def Dataset.valid (ds : Dataset) (hash : String → String) (fs : FileSys) :
    Except ECErr Bool := do
  let key ← ds.read_md5sum fs
  let result ← ds.calculate_md5sum hash fs
  pure (key == result)

/-- Outcome of Dataset.move. -/
inductive MoveResult where
  | ok
  | errIncomplete
  | errRename
deriving DecidableEq

/-- Dataset.move (src/ecreceive/dataset.py:148-160): require
completeness, then for member in [data_path, md5_path]: rename the file
into the destination directory and update that member.  `ren src dst`
is the environment oracle deciding whether the os.rename system call
succeeds (false e.g. when the destination directory does not exist); a
failing rename raises OSError, leaving the state reached so far. -/
def Dataset.move (ds : Dataset) (ren : String → String → Bool) (fs : FileSys)
    (destination : String) : FileSys × Dataset × MoveResult :=
  if ¬ (ds.complete fs) then (fs, ds, MoveResult.errIncomplete)
  else
    let dd := joinPath destination (basename ds.data_path)
    if ren ds.data_path dd then
      let fs1 := fsRename fs ds.data_path dd
      let ds1 : Dataset := { ds with data_path := dd }
      let md := joinPath destination (basename ds1.md5_path)
      if ren ds1.md5_path md then
        (fsRename fs1 ds1.md5_path md, { ds1 with md5_path := md }, MoveResult.ok)
      else (fs1, ds1, MoveResult.errRename)
    else (fs, ds, MoveResult.errRename)

theorem fsGet_set_self (fs : FileSys) (p : String) (c : String) :
    fsGet (fsSet fs p c) p = some c := by
  induction fs with
  | nil => simp [fsSet, fsGet]
  | cons q rest ih =>
    obtain ⟨p1, c1⟩ := q
    by_cases h : p = p1
    · simp [fsSet, fsGet, h]
    · simp [fsSet, fsGet, h, ih]

theorem fsGet_set_other (fs : FileSys) (p p2 : String) (c : String) (h : p2 ≠ p) :
    fsGet (fsSet fs p c) p2 = fsGet fs p2 := by
  induction fs with
  | nil => simp [fsSet, fsGet, h]
  | cons q rest ih =>
    obtain ⟨p1, c1⟩ := q
    by_cases h1 : p = p1
    · subst h1
      simp [fsSet, fsGet, h]
    · by_cases h2 : p2 = p1
      · simp [fsSet, fsGet, h1, h2]
      · simp [fsSet, fsGet, h1, h2, ih]

theorem fsGet_del_self (fs : FileSys) (p : String) : fsGet (fsDel fs p) p = none := by
  induction fs with
  | nil => simp [fsDel, fsGet]
  | cons q rest ih =>
    obtain ⟨p1, c1⟩ := q
    by_cases h : p1 = p
    · simpa [fsDel, h] using ih
    · have hcons : fsDel ((p1, c1) :: rest) p = (p1, c1) :: fsDel rest p := by
        simp [fsDel, h]
      rw [hcons]
      simp only [fsGet]
      rw [if_neg (Ne.symm h)]
      exact ih

theorem fsGet_del_other (fs : FileSys) (p p2 : String) (h : p2 ≠ p) :
    fsGet (fsDel fs p) p2 = fsGet fs p2 := by
  induction fs with
  | nil => simp [fsDel, fsGet]
  | cons q rest ih =>
    obtain ⟨p1, c1⟩ := q
    by_cases h1 : p1 = p
    · have hcons : fsDel ((p1, c1) :: rest) p = fsDel rest p := by
        simp [fsDel, h1]
      rw [hcons]
      simp only [fsGet]
      rw [if_neg (by rw [h1]; exact h)]
      exact ih
    · have hcons : fsDel ((p1, c1) :: rest) p = (p1, c1) :: fsDel rest p := by
        simp [fsDel, h1]
      rw [hcons]
      by_cases h2 : p2 = p1
      · simp [fsGet, h2]
      · simp only [fsGet]
        rw [if_neg h2, if_neg h2]
        exact ih

theorem mk_data (l : List Char) : (String.mk l).data = l := rfl

/-- C10: read_md5sum returns exactly the first 32 characters of the
sidecar and raises only when fewer than 32 are available; a longer
sidecar is accepted; valid() compares exactly those 32 characters with
the digest of the data file, so characters after the 32nd never affect
valid(). -/
theorem claim_c10_sidecar_prefix (ds : Dataset) (hash : String → String)
    (fs : FileSys) (content data extra : String) :
    (fsGet fs ds.md5_path = some content → 32 ≤ content.data.length →
      ds.read_md5sum fs = Except.ok (String.mk (content.data.take 32)))
    ∧ (fsGet fs ds.md5_path = some content → content.data.length < 32 →
      ds.read_md5sum fs = Except.error ECErr.invalidData)
    ∧ (fsGet fs ds.md5_path = some content → fsGet fs ds.data_path = some data →
        32 ≤ content.data.length →
        ds.valid hash fs = Except.ok (String.mk (content.data.take 32) == hash data))
    ∧ (∀ fs2 : FileSys, fsGet fs2 ds.md5_path = some (content ++ extra) →
        fsGet fs2 ds.data_path = fsGet fs ds.data_path →
        fsGet fs ds.md5_path = some content → content.data.length = 32 →
        ds.valid hash fs2 = ds.valid hash fs) := by
  refine ⟨fun h1 hlen => ?_, fun h1 hlen => ?_, fun h1 h2 hlen => ?_,
    fun fs2 h2m h2d h1m hlen => ?_⟩
  · simp only [Dataset.read_md5sum, h1]
    rw [if_neg (by rw [mk_data, List.length_take]; omega)]
  · simp only [Dataset.read_md5sum, h1]
    rw [if_pos (by rw [mk_data, List.length_take]; omega)]
  · simp only [Dataset.valid, Dataset.read_md5sum, Dataset.calculate_md5sum, h1, h2]
    rw [if_neg (by rw [mk_data, List.length_take]; omega)]
    rfl
  · have htake : ((content ++ extra).data).take 32 = content.data.take 32 := by
      rw [show (content ++ extra).data = content.data ++ extra.data from rfl]
      rw [List.take_append_eq_append_take, hlen]
      simp [← hlen]
    simp only [Dataset.valid, Dataset.read_md5sum, Dataset.calculate_md5sum,
      h2m, h1m, h2d, htake]

/-- Witness for C10 at a concrete dataset with a 32-character sidecar
plus two trailing characters. -/
theorem claim_c10_sidecar_prefix_witness :
    (Dataset.read_md5sum ⟨"d", "d.md5"⟩
        [("d", "DATA"), ("d.md5", "0123456789abcdef0123456789abcdef")]
      = Except.ok (String.mk
          (("0123456789abcdef0123456789abcdef" : String).data.take 32)))
    ∧ (Dataset.read_md5sum ⟨"d", "d.md5"⟩ [("d", "DATA"), ("d.md5", "0123")]
      = Except.error ECErr.invalidData)
    ∧ (Dataset.valid ⟨"d", "d.md5"⟩ (fun _ => "0123456789abcdef0123456789abcdef")
        [("d", "DATA"), ("d.md5", "0123456789abcdef0123456789abcdef")]
      = Except.ok (String.mk (("0123456789abcdef0123456789abcdef" : String).data.take 32)
          == "0123456789abcdef0123456789abcdef"))
    ∧ (Dataset.valid ⟨"d", "d.md5"⟩ (fun _ => "0123456789abcdef0123456789abcdef")
        [("d", "DATA"), ("d.md5", "0123456789abcdef0123456789abcdef" ++ "zz")]
      = Dataset.valid ⟨"d", "d.md5"⟩ (fun _ => "0123456789abcdef0123456789abcdef")
        [("d", "DATA"), ("d.md5", "0123456789abcdef0123456789abcdef")]) := by
  have h1 := claim_c10_sidecar_prefix ⟨"d", "d.md5"⟩
    (fun _ => "0123456789abcdef0123456789abcdef")
    [("d", "DATA"), ("d.md5", "0123456789abcdef0123456789abcdef")]
    "0123456789abcdef0123456789abcdef" "DATA" "zz"
  have h2 := claim_c10_sidecar_prefix ⟨"d", "d.md5"⟩
    (fun _ => "0123456789abcdef0123456789abcdef")
    [("d", "DATA"), ("d.md5", "0123")] "0123" "DATA" "zz"
  refine ⟨h1.1 (by decide) (by decide), h2.2.1 (by decide) (by decide),
    h1.2.2.1 (by decide) (by decide) (by decide), ?_⟩
  exact h1.2.2.2 [("d", "DATA"), ("d.md5", "0123456789abcdef0123456789abcdef" ++ "zz")]
    (by decide) (by decide) (by decide) (by decide)

/-- Counterexample to C3 as stated: with a complete dataset whose second
rename (of the md5 file) fails, the outcome is neither "both files at
the destination and none at the source" nor "paths unchanged and
complete at the source": the data file alone has moved and data_path
alone was updated. -/
theorem claim_c3_counterexample_second_rename :
    (Dataset.move ⟨"/spool/f", "/spool/f.md5"⟩ (fun src _ => src == "/spool/f")
        [("/spool/f", "D"), ("/spool/f.md5", "M")] "/dst").2.2 = MoveResult.errRename
    ∧ ¬ (((fsGet (Dataset.move ⟨"/spool/f", "/spool/f.md5"⟩
            (fun src _ => src == "/spool/f")
            [("/spool/f", "D"), ("/spool/f.md5", "M")] "/dst").1 "/dst/f").isSome
          ∧ (fsGet (Dataset.move ⟨"/spool/f", "/spool/f.md5"⟩
              (fun src _ => src == "/spool/f")
              [("/spool/f", "D"), ("/spool/f.md5", "M")] "/dst").1 "/dst/f.md5").isSome
          ∧ fsGet (Dataset.move ⟨"/spool/f", "/spool/f.md5"⟩
              (fun src _ => src == "/spool/f")
              [("/spool/f", "D"), ("/spool/f.md5", "M")] "/dst").1 "/spool/f" = none
          ∧ fsGet (Dataset.move ⟨"/spool/f", "/spool/f.md5"⟩
              (fun src _ => src == "/spool/f")
              [("/spool/f", "D"), ("/spool/f.md5", "M")] "/dst").1 "/spool/f.md5" = none)
        ∨ ((Dataset.move ⟨"/spool/f", "/spool/f.md5"⟩ (fun src _ => src == "/spool/f")
              [("/spool/f", "D"), ("/spool/f.md5", "M")] "/dst").2.1
            = (⟨"/spool/f", "/spool/f.md5"⟩ : Dataset)
          ∧ Dataset.complete ⟨"/spool/f", "/spool/f.md5"⟩
              (Dataset.move ⟨"/spool/f", "/spool/f.md5"⟩ (fun src _ => src == "/spool/f")
                [("/spool/f", "D"), ("/spool/f.md5", "M")] "/dst").1 = true)) := by
  decide

/-- C3 (amended): move raises and changes nothing when the dataset is
incomplete; when the first rename fails nothing has changed and
complete() still holds at the source; when both renames succeed both
files sit at the destination, the source paths are empty, and both
internal paths are updated; but each internal path is updated right
after that file's own rename, so when the second rename fails the data
file is already at the destination with data_path updated while the md5
file and md5_path are unchanged — the failure is surfaced (OSError),
but the move is not all-or-nothing in that case. -/
theorem claim_c3_move_per_member (ds : Dataset) (ren : String → String → Bool)
    (fs : FileSys) (dest dcontent mcontent : String) :
    (ds.complete fs = false → ds.move ren fs dest = (fs, ds, MoveResult.errIncomplete))
    ∧ (ds.complete fs = true →
        ren ds.data_path (joinPath dest (basename ds.data_path)) = false →
        ds.move ren fs dest = (fs, ds, MoveResult.errRename)
          ∧ ds.complete (ds.move ren fs dest).1 = true)
    ∧ (fsGet fs ds.data_path = some dcontent → fsGet fs ds.md5_path = some mcontent →
        ren ds.data_path (joinPath dest (basename ds.data_path)) = true →
        ren ds.md5_path (joinPath dest (basename ds.md5_path)) = true →
        ds.data_path ≠ ds.md5_path →
        ds.data_path ≠ joinPath dest (basename ds.data_path) →
        ds.data_path ≠ joinPath dest (basename ds.md5_path) →
        ds.md5_path ≠ joinPath dest (basename ds.data_path) →
        ds.md5_path ≠ joinPath dest (basename ds.md5_path) →
        joinPath dest (basename ds.data_path) ≠ joinPath dest (basename ds.md5_path) →
        (ds.move ren fs dest).2.2 = MoveResult.ok
          ∧ (ds.move ren fs dest).2.1.data_path = joinPath dest (basename ds.data_path)
          ∧ (ds.move ren fs dest).2.1.md5_path = joinPath dest (basename ds.md5_path)
          ∧ fsGet (ds.move ren fs dest).1 (joinPath dest (basename ds.data_path))
              = some dcontent
          ∧ fsGet (ds.move ren fs dest).1 (joinPath dest (basename ds.md5_path))
              = some mcontent
          ∧ fsGet (ds.move ren fs dest).1 ds.data_path = none
          ∧ fsGet (ds.move ren fs dest).1 ds.md5_path = none)
    ∧ (fsGet fs ds.data_path = some dcontent → fsGet fs ds.md5_path = some mcontent →
        ren ds.data_path (joinPath dest (basename ds.data_path)) = true →
        ren ds.md5_path (joinPath dest (basename ds.md5_path)) = false →
        ds.data_path ≠ ds.md5_path →
        ds.data_path ≠ joinPath dest (basename ds.data_path) →
        ds.md5_path ≠ joinPath dest (basename ds.data_path) →
        (ds.move ren fs dest).2.2 = MoveResult.errRename
          ∧ (ds.move ren fs dest).2.1.data_path = joinPath dest (basename ds.data_path)
          ∧ (ds.move ren fs dest).2.1.md5_path = ds.md5_path
          ∧ fsGet (ds.move ren fs dest).1 (joinPath dest (basename ds.data_path))
              = some dcontent
          ∧ fsGet (ds.move ren fs dest).1 ds.data_path = none
          ∧ fsGet (ds.move ren fs dest).1 ds.md5_path = some mcontent) := by
  refine ⟨fun hinc => ?_, fun hc hr1 => ?_, ?_, ?_⟩
  · simp [Dataset.move, hinc]
  · have hmv : ds.move ren fs dest = (fs, ds, MoveResult.errRename) := by
      simp only [Dataset.move]
      rw [if_neg (by simp [hc])]
      rw [if_neg (by simp [hr1])]
    exact ⟨hmv, by rw [hmv]; exact hc⟩
  · intro hd hm hr1 hr2 hne1 hne2 hne3 hne4 hne5 hne6
    have hc : ds.complete fs = true := by
      simp [Dataset.complete, Dataset.has_data_file, Dataset.has_md5_file,
        fsExists, hd, hm]
    have hfs1 : fsRename fs ds.data_path (joinPath dest (basename ds.data_path))
        = fsSet (fsDel fs ds.data_path) (joinPath dest (basename ds.data_path))
            dcontent := by
      simp [fsRename, hd]
    have hm1 : fsGet (fsRename fs ds.data_path (joinPath dest (basename ds.data_path)))
        ds.md5_path = some mcontent := by
      rw [hfs1, fsGet_set_other _ _ _ _ hne4, fsGet_del_other _ _ _ (Ne.symm hne1)]
      exact hm
    have hmv : ds.move ren fs dest
        = (fsRename
            (fsRename fs ds.data_path (joinPath dest (basename ds.data_path)))
            ds.md5_path (joinPath dest (basename ds.md5_path)),
          { data_path := joinPath dest (basename ds.data_path),
            md5_path := joinPath dest (basename ds.md5_path) },
          MoveResult.ok) := by
      simp only [Dataset.move]
      rw [if_neg (by simp [hc])]
      rw [if_pos hr1, if_pos hr2]
    have hfs2 : fsRename
        (fsRename fs ds.data_path (joinPath dest (basename ds.data_path)))
        ds.md5_path (joinPath dest (basename ds.md5_path))
        = fsSet (fsDel (fsSet (fsDel fs ds.data_path)
            (joinPath dest (basename ds.data_path)) dcontent) ds.md5_path)
            (joinPath dest (basename ds.md5_path)) mcontent := by
      rw [hfs1]
      rw [show fsRename (fsSet (fsDel fs ds.data_path)
          (joinPath dest (basename ds.data_path)) dcontent) ds.md5_path
          (joinPath dest (basename ds.md5_path))
        = fsSet (fsDel (fsSet (fsDel fs ds.data_path)
            (joinPath dest (basename ds.data_path)) dcontent) ds.md5_path)
            (joinPath dest (basename ds.md5_path)) mcontent from by
        rw [fsRename]
        rw [show fsGet (fsSet (fsDel fs ds.data_path)
            (joinPath dest (basename ds.data_path)) dcontent) ds.md5_path
            = some mcontent from by
          rw [fsGet_set_other _ _ _ _ hne4, fsGet_del_other _ _ _ (Ne.symm hne1)]
          exact hm]]
    rw [hmv]
    refine ⟨rfl, rfl, rfl, ?_, ?_, ?_, ?_⟩
    · rw [hfs2, fsGet_set_other _ _ _ _ hne6, fsGet_del_other _ _ _ (Ne.symm hne4),
        fsGet_set_self]
    · rw [hfs2, fsGet_set_self]
    · rw [hfs2, fsGet_set_other _ _ _ _ hne3, fsGet_del_other _ _ _ hne1,
        fsGet_set_other _ _ _ _ hne2, fsGet_del_self]
    · rw [hfs2, fsGet_set_other _ _ _ _ hne5, fsGet_del_self]
  · intro hd hm hr1 hr2 hne1 hne2 hne4
    have hc : ds.complete fs = true := by
      simp [Dataset.complete, Dataset.has_data_file, Dataset.has_md5_file,
        fsExists, hd, hm]
    have hfs1 : fsRename fs ds.data_path (joinPath dest (basename ds.data_path))
        = fsSet (fsDel fs ds.data_path) (joinPath dest (basename ds.data_path))
            dcontent := by
      simp [fsRename, hd]
    have hmv : ds.move ren fs dest
        = (fsRename fs ds.data_path (joinPath dest (basename ds.data_path)),
          { data_path := joinPath dest (basename ds.data_path),
            md5_path := ds.md5_path },
          MoveResult.errRename) := by
      simp only [Dataset.move]
      rw [if_neg (by simp [hc])]
      rw [if_pos hr1]
      rw [if_neg (by simp [hr2])]
    rw [hmv]
    refine ⟨rfl, rfl, rfl, ?_, ?_, ?_⟩
    · rw [hfs1, fsGet_set_self]
    · rw [hfs1, fsGet_set_other _ _ _ _ hne2, fsGet_del_self]
    · rw [hfs1, fsGet_set_other _ _ _ _ hne4, fsGet_del_other _ _ _ (Ne.symm hne1)]
      exact hm

/-- Witness for C3 at concrete datasets: one incomplete move, one with a
failing first rename, one fully successful move, and one with a failing
second rename. -/
theorem claim_c3_move_per_member_witness :
    Dataset.move ⟨"/spool/g", "/spool/g.md5"⟩ (fun _ _ => true)
        [("/spool/g", "D")] "/dst"
      = ([("/spool/g", "D")], ⟨"/spool/g", "/spool/g.md5"⟩, MoveResult.errIncomplete)
    ∧ Dataset.move ⟨"/spool/f", "/spool/f.md5"⟩ (fun _ _ => false)
        [("/spool/f", "D"), ("/spool/f.md5", "M")] "/dst"
      = ([("/spool/f", "D"), ("/spool/f.md5", "M")],
          ⟨"/spool/f", "/spool/f.md5"⟩, MoveResult.errRename)
    ∧ ((Dataset.move ⟨"/spool/f", "/spool/f.md5"⟩ (fun _ _ => true)
          [("/spool/f", "D"), ("/spool/f.md5", "M")] "/dst").2.2 = MoveResult.ok
        ∧ fsGet (Dataset.move ⟨"/spool/f", "/spool/f.md5"⟩ (fun _ _ => true)
            [("/spool/f", "D"), ("/spool/f.md5", "M")] "/dst").1 "/spool/f" = none)
    ∧ ((Dataset.move ⟨"/spool/f", "/spool/f.md5"⟩ (fun src _ => src == "/spool/f")
          [("/spool/f", "D"), ("/spool/f.md5", "M")] "/dst").2.2 = MoveResult.errRename
        ∧ (Dataset.move ⟨"/spool/f", "/spool/f.md5"⟩ (fun src _ => src == "/spool/f")
            [("/spool/f", "D"), ("/spool/f.md5", "M")] "/dst").2.1.data_path
          = joinPath "/dst" (basename "/spool/f")
        ∧ fsGet (Dataset.move ⟨"/spool/f", "/spool/f.md5"⟩ (fun src _ => src == "/spool/f")
            [("/spool/f", "D"), ("/spool/f.md5", "M")] "/dst").1 "/spool/f.md5"
          = some "M") := by
  have h1 := claim_c3_move_per_member ⟨"/spool/g", "/spool/g.md5"⟩ (fun _ _ => true)
    [("/spool/g", "D")] "/dst" "D" "M"
  have h2 := claim_c3_move_per_member ⟨"/spool/f", "/spool/f.md5"⟩ (fun _ _ => false)
    [("/spool/f", "D"), ("/spool/f.md5", "M")] "/dst" "D" "M"
  have h3 := claim_c3_move_per_member ⟨"/spool/f", "/spool/f.md5"⟩ (fun _ _ => true)
    [("/spool/f", "D"), ("/spool/f.md5", "M")] "/dst" "D" "M"
  have h4 := claim_c3_move_per_member ⟨"/spool/f", "/spool/f.md5"⟩
    (fun src _ => src == "/spool/f")
    [("/spool/f", "D"), ("/spool/f.md5", "M")] "/dst" "D" "M"
  have h3c := h3.2.2.1 (by decide) (by decide) (by decide) (by decide) (by decide)
    (by decide) (by decide) (by decide) (by decide) (by decide)
  have h4c := h4.2.2.2 (by decide) (by decide) (by decide) (by decide) (by decide)
    (by decide) (by decide)
  exact ⟨h1.1 (by decide), (h2.2.1 (by decide) (by decide)).1,
    ⟨h3c.1, h3c.2.2.2.2.2.1⟩, ⟨h4c.1, h4c.2.1, h4c.2.2.2.2.2⟩⟩

/-! ## parse_filename_timestamp (src/ecreceive/__init__.py:20-44) -/

/-- A Python datetime to minute precision.  Timezones are dropped from
the model: force_utc attaches a UTC tzinfo to naive timestamps and every
timestamp handled here is naive or already UTC, so the field values are
unchanged by it. -/
structure DateTime where
  year : Nat
  month : Nat
  day : Nat
  hour : Nat
  minute : Nat
deriving DecidableEq

/-- Gregorian leap-year rule (as used by Python's datetime). -/
def isLeapYear (y : Nat) : Bool :=
  y % 4 == 0 && (y % 100 != 0 || y % 400 == 0)

/-- Number of days of month m in year y. -/
def daysInMonth (y m : Nat) : Nat :=
  if m = 2 then (if isLeapYear y then 29 else 28)
  else if m = 4 ∨ m = 6 ∨ m = 9 ∨ m = 11 then 30
  else 31

/-- Parse a two-digit numeric field of the stamp. -/
def twoDigits (a b : Char) : Option Nat :=
  if a.isDigit && b.isDigit then some (digitVal a * 10 + digitVal b) else none

/-- The year-guess workaround loop (src/ecreceive/__init__.py:39-43):
for delta in [-1, 1], if (now + relativedelta(months=delta)).month
equals the parsed month, replace the parsed year by that neighbour's
year.  relativedelta only clamps the day, which cannot change the
month or year; datetime.replace(year=...) could reject Feb 29 in a
non-leap target year, but the target year differs from the parsed year
only when the month is December or January, so that check cannot fire
and is omitted. -/
def year_workaround (now : DateTime) (ts : DateTime) : DateTime :=
  let ts1 := if (if now.month = 1 then 12 else now.month - 1) = ts.month then
      { ts with year := if now.month = 1 then now.year - 1 else now.year }
    else ts
  if (if now.month = 12 then 1 else now.month + 1) = ts1.month then
    { ts1 with year := if now.month = 12 then now.year + 1 else now.year }
  else ts1

/-- parse_filename_timestamp (src/ecreceive/__init__.py:20-44), modelled
for 8-character stamps — the shape parse_filename passes (filename
positions [3:11] and [11:19]).  `Except.ok none` is the Python None for
the all-underscore stamp; `Except.error ()` is a ValueError.  The two
strptime formats '%Y%m%d%H%M' and '%Y%m%d____' on str(now.year) + stamp
amount to: two-digit month in 1..12, two-digit day valid for that month
in the guessed year now.year, and either a two-digit hour 0..23 with
two-digit minute 0..59 or the literal "____" (hour and minute then
default to 0). -/
def parse_filename_timestamp (stamp : String) (now : DateTime) :
    Except Unit (Option DateTime) :=
  if stamp = "________" then Except.ok none
  else
    match stamp.data with
    | [a, b, c, d, e, f, g, h] =>
      match twoDigits a b, twoDigits c d with
      | some mm, some dd =>
        if 1 ≤ mm ∧ mm ≤ 12 ∧ 1 ≤ dd ∧ dd ≤ daysInMonth now.year mm then
          match twoDigits e f, twoDigits g h with
          | some hh, some mi =>
            if hh ≤ 23 ∧ mi ≤ 59 then
              Except.ok (some (year_workaround now ⟨now.year, mm, dd, hh, mi⟩))
            else Except.error ()
          | _, _ =>
            if e = '_' ∧ f = '_' ∧ g = '_' ∧ h = '_' then
              Except.ok (some (year_workaround now ⟨now.year, mm, dd, 0, 0⟩))
            else Except.error ()
        else Except.error ()
      | _, _ => Except.error ()
    | _ => Except.error ()

/-- The year rule the code actually implements, as a standalone
definition: now.year, replaced by the year of now − 1 month when the
stamp month is the month before now's, or by the year of now + 1 month
when it is the month after. -/
def adjacentMonthYear (now : DateTime) (mm : Nat) : Nat :=
  if (if now.month = 1 then 12 else now.month - 1) = mm then
    (if now.month = 1 then now.year - 1 else now.year)
  else if (if now.month = 12 then 1 else now.month + 1) = mm then
    (if now.month = 12 then now.year + 1 else now.year)
  else now.year

/-- Days before month m in year y (month 1 contributes nothing). -/
def daysBeforeMonth (y m : Nat) : Nat :=
  (List.range (m - 1)).foldl (fun acc i => acc + daysInMonth y (i + 1)) 0

/-- Proleptic Gregorian day number, used only to compare distances
between timestamps. -/
def rataDie (y m d : Nat) : Nat :=
  365 * (y - 1) + (y - 1) / 4 - (y - 1) / 100 + (y - 1) / 400
    + daysBeforeMonth y m + d

/-- Minute-resolution timeline position of a timestamp. -/
def toMinutes (t : DateTime) : Nat :=
  (rataDie t.year t.month t.day * 24 + t.hour) * 60 + t.minute

/-- Distance in minutes between two timestamps. -/
def distMinutes (a b : DateTime) : Nat :=
  max (toMinutes a) (toMinutes b) - min (toMinutes a) (toMinutes b)

theorem year_workaround_eq_adjacent (now : DateTime) (mm dd hh mi : Nat) :
    year_workaround now ⟨now.year, mm, dd, hh, mi⟩
      = ⟨adjacentMonthYear now mm, mm, dd, hh, mi⟩ := by
  have hne : ¬(((if now.month = 1 then 12 else now.month - 1) = mm)
      ∧ ((if now.month = 12 then 1 else now.month + 1) = mm)) := by
    by_cases hm1 : now.month = 1 <;> by_cases hm12 : now.month = 12 <;>
      simp [hm1, hm12] <;> omega
  by_cases h1 : (if now.month = 1 then 12 else now.month - 1) = mm <;>
    by_cases h2 : (if now.month = 12 then 1 else now.month + 1) = mm
  · exact absurd ⟨h1, h2⟩ hne
  · simp [year_workaround, adjacentMonthYear, h1, h2]
  · simp [year_workaround, adjacentMonthYear, h1, h2]
  · simp [year_workaround, adjacentMonthYear, h1, h2]

/-- Two-character zero-padded decimal rendering of a stamp field. -/
def render2 (n : Nat) : List Char := [Nat.digitChar (n / 10), Nat.digitChar (n % 10)]

/-- The MMDDHHMM stamp holding the given field values. -/
def renderStamp (mm dd hh mi : Nat) : String :=
  String.mk (render2 mm ++ render2 dd ++ render2 hh ++ render2 mi)

/-- The MMDD____ stamp holding the given field values. -/
def renderStampU (mm dd : Nat) : String :=
  String.mk (render2 mm ++ render2 dd ++ ['_', '_', '_', '_'])

theorem digitChar_ne_underscore (d : Nat) (h : d < 10) : Nat.digitChar d ≠ '_' := by
  interval_cases d <;> decide

theorem twoDigits_render (n : Nat) (h : n < 100) :
    twoDigits (Nat.digitChar (n / 10)) (Nat.digitChar (n % 10)) = some n := by
  rw [twoDigits]
  rw [isDigit_digitChar (by omega), isDigit_digitChar (by omega)]
  simp only [Bool.and_self, if_true]
  rw [digitVal_digitChar (by omega), digitVal_digitChar (by omega)]
  congr 1
  omega

theorem daysInMonth_le (y m : Nat) : daysInMonth y m ≤ 31 := by
  unfold daysInMonth
  split_ifs <;> omega

theorem renderStamp_ne_underscores (mm dd hh mi : Nat) (h : mm < 100) :
    renderStamp mm dd hh mi ≠ "________" := by
  intro heq
  have h0 : (renderStamp mm dd hh mi).data.head? = ("________" : String).data.head? :=
    congrArg (fun s => s.data.head?) heq
  rw [show ((renderStamp mm dd hh mi).data.head?) = some (Nat.digitChar (mm / 10))
    from rfl] at h0
  rw [show (("________" : String).data.head?) = some '_' from rfl] at h0
  exact digitChar_ne_underscore (mm / 10) (by omega) (Option.some.inj h0)

theorem renderStampU_ne_underscores (mm dd : Nat) (h : mm < 100) :
    renderStampU mm dd ≠ "________" := by
  intro heq
  have h0 : (renderStampU mm dd).data.head? = ("________" : String).data.head? :=
    congrArg (fun s => s.data.head?) heq
  rw [show ((renderStampU mm dd).data.head?) = some (Nat.digitChar (mm / 10))
    from rfl] at h0
  rw [show (("________" : String).data.head?) = some '_' from rfl] at h0
  exact digitChar_ne_underscore (mm / 10) (by omega) (Option.some.inj h0)

/-- Counterexample to C5's year rule as stated: stamp "0801____"
observed at 2015-01-01T00:00Z is completed by the code to 2015-08-01,
yet the candidate year now.year − 1 = 2014 also carries the stamp's
month and 2014-08-01 is strictly closer to the reference time, so the
year is NOT "the candidate whose month matches the stamp's month and is
closest to now". -/
theorem claim_c5_counterexample_not_closest :
    parse_filename_timestamp "0801____" ⟨2015, 1, 1, 0, 0⟩
      = Except.ok (some ⟨2015, 8, 1, 0, 0⟩)
    ∧ (⟨2014, 8, 1, 0, 0⟩ : DateTime).month = (⟨2015, 8, 1, 0, 0⟩ : DateTime).month
    ∧ 2014 = 2015 - 1
    ∧ distMinutes ⟨2014, 8, 1, 0, 0⟩ ⟨2015, 1, 1, 0, 0⟩
        < distMinutes ⟨2015, 8, 1, 0, 0⟩ ⟨2015, 1, 1, 0, 0⟩ := by
  exact ⟨rfl, rfl, rfl, by decide⟩

/-- C5 (amended): the all-placeholder stamp yields no timestamp;
otherwise a valid MMDDHHMM (or MMDD____, defaulting to 00:00) stamp is
completed to a timestamp carrying the stamp's fields and the year given
by the adjacent-month rule — now.year, replaced by (now ∓ 1 month).year
exactly when the stamp month equals that neighbour's month; there is no
closest-candidate search.  The two quoted examples hold as stated. -/
theorem claim_c5_timestamp_rule (now : DateTime) (mm dd hh mi : Nat) :
    parse_filename_timestamp "________" now = Except.ok none
    ∧ (1 ≤ mm → mm ≤ 12 → 1 ≤ dd → dd ≤ daysInMonth now.year mm →
        hh ≤ 23 → mi ≤ 59 →
        parse_filename_timestamp (renderStamp mm dd hh mi) now
          = Except.ok (some ⟨adjacentMonthYear now mm, mm, dd, hh, mi⟩))
    ∧ (1 ≤ mm → mm ≤ 12 → 1 ≤ dd → dd ≤ daysInMonth now.year mm →
        parse_filename_timestamp (renderStampU mm dd) now
          = Except.ok (some ⟨adjacentMonthYear now mm, mm, dd, 0, 0⟩))
    ∧ parse_filename_timestamp "0601____" ⟨2015, 12, 1, 0, 0⟩
        = Except.ok (some ⟨2015, 6, 1, 0, 0⟩)
    ∧ parse_filename_timestamp "12011325" ⟨2015, 1, 1, 0, 0⟩
        = Except.ok (some ⟨2014, 12, 1, 13, 25⟩) := by
  refine ⟨rfl, fun h1 h2 h3 h4 h5 h6 => ?_, fun h1 h2 h3 h4 => ?_, rfl, rfl⟩
  · have hdd : dd < 100 := by
      have := daysInMonth_le now.year mm
      omega
    rw [parse_filename_timestamp,
      if_neg (renderStamp_ne_underscores mm dd hh mi (by omega))]
    rw [show (renderStamp mm dd hh mi).data
        = [Nat.digitChar (mm / 10), Nat.digitChar (mm % 10),
           Nat.digitChar (dd / 10), Nat.digitChar (dd % 10),
           Nat.digitChar (hh / 10), Nat.digitChar (hh % 10),
           Nat.digitChar (mi / 10), Nat.digitChar (mi % 10)] from rfl]
    simp only [twoDigits_render mm (by omega), twoDigits_render dd hdd,
      twoDigits_render hh (by omega), twoDigits_render mi (by omega)]
    rw [if_pos ⟨h1, h2, h3, h4⟩, if_pos ⟨h5, h6⟩]
    rw [year_workaround_eq_adjacent]
  · have hdd : dd < 100 := by
      have := daysInMonth_le now.year mm
      omega
    rw [parse_filename_timestamp,
      if_neg (renderStampU_ne_underscores mm dd (by omega))]
    rw [show (renderStampU mm dd).data
        = [Nat.digitChar (mm / 10), Nat.digitChar (mm % 10),
           Nat.digitChar (dd / 10), Nat.digitChar (dd % 10),
           '_', '_', '_', '_'] from rfl]
    simp only [twoDigits_render mm (by omega), twoDigits_render dd hdd]
    rw [if_pos ⟨h1, h2, h3, h4⟩]
    rw [show twoDigits '_' '_' = none from rfl]
    simp [year_workaround_eq_adjacent]

/-- Witness for C5 at the leap-year stamp "02290300" observed at
2016-02-01 and the placeholder-time stamp "0615____". -/
theorem claim_c5_timestamp_rule_witness :
    parse_filename_timestamp "________" ⟨2016, 2, 1, 0, 0⟩ = Except.ok none
    ∧ parse_filename_timestamp (renderStamp 2 29 3 0) ⟨2016, 2, 1, 0, 0⟩
        = Except.ok (some ⟨adjacentMonthYear ⟨2016, 2, 1, 0, 0⟩ 2, 2, 29, 3, 0⟩)
    ∧ parse_filename_timestamp (renderStampU 6 15) ⟨2016, 2, 1, 0, 0⟩
        = Except.ok (some ⟨adjacentMonthYear ⟨2016, 2, 1, 0, 0⟩ 6, 6, 15, 0, 0⟩)
    ∧ parse_filename_timestamp "0601____" ⟨2015, 12, 1, 0, 0⟩
        = Except.ok (some ⟨2015, 6, 1, 0, 0⟩)
    ∧ parse_filename_timestamp "12011325" ⟨2015, 1, 1, 0, 0⟩
        = Except.ok (some ⟨2014, 12, 1, 13, 25⟩) := by
  have h := claim_c5_timestamp_rule ⟨2016, 2, 1, 0, 0⟩ 2 29 3 0
  have h2 := claim_c5_timestamp_rule ⟨2016, 2, 1, 0, 0⟩ 6 15 0 0
  exact ⟨h.1,
    h.2.1 (by decide) (by decide) (by decide) (by decide) (by decide) (by decide),
    h2.2.2.1 (by decide) (by decide) (by decide) (by decide),
    h.2.2.2.1, h.2.2.2.2⟩

/-! ## DatasetPublisher.process_file (src/ecreceive/dataset.py:260-531)

The checkpoint RPCs are synchronous round-trips to the checkpoint
thread, which applies the corresponding Checkpoint method; they are
modelled as direct calls.  The remote catalog interaction inside the
productstatus_submit closure is abstracted by a per-attempt outcome
oracle: each execution of the closure either performs all its remote
calls successfully or raises at some point with no locally visible
effect (the closure's only local effect, checkpoint_delete, happens
after the last remote call, immediately before returning True). -/

/-- Outcome of the i-th execution of the remote calls of
productstatus_submit (dataset.py:478-515). -/
inductive SubmitOutcome where
  | success
  | serviceUnavailable
  | productstatusError
  | otherError
deriving DecidableEq

/-- The exception filter passed to retry_n at dataset.py:518-524:
exceptions = (productstatus.exceptions.ServiceUnavailableException,
ecreceive.exceptions.ECReceiveProductstatusException).  Note that
ECReceiveProductstatusException IS a member of the tuple. -/
def publish_retryable : SubmitOutcome → Bool
  | SubmitOutcome.success => false
  | SubmitOutcome.serviceUnavailable => true
  | SubmitOutcome.productstatusError => true
  | SubmitOutcome.otherError => false

/-- The give-up bound the publish stage runs under: retry_n is called
without a give_up argument, so its default 5 applies
(src/ecreceive/__init__.py:66, src/ecreceive/dataset.py:518-524). -/
def publish_give_up : Int := 5

/-- One retry attempt of productstatus_submit, classified through the
exception filter. -/
def publishAttempt (submit : Nat → SubmitOutcome) (i : Nat) : Attempt Unit :=
  match submit i with
  | SubmitOutcome.success => Attempt.success ()
  | o => if publish_retryable o then Attempt.failListed else Attempt.failOther

/-- The retry loop the publish stage runs: retry_n's defaults
(warning 1, error 3, give_up 5).  Fuel 5 suffices: with give_up = 5 the
loop makes at most 5 calls.  retry_n's assert holds for the defaults, so
retry_n is exactly Except.ok of this (see publish_retry_eq_retry_n). -/
def publish_retry (submit : Nat → SubmitOutcome) :
    RetryResult Unit × Nat × List LogLevel :=
  retry_go (publishAttempt submit) 1 3 publish_give_up 0 5

theorem publish_retry_eq_retry_n (submit : Nat → SubmitOutcome) :
    retry_n (publishAttempt submit) 1 3 publish_give_up 5
      = Except.ok (publish_retry submit) := rfl

/-- Environment of process_file: the configured directories, the md5
digest function, the os.rename success oracle, and the submit outcome
oracle. -/
structure PFEnv where
  destination_path : String
  spool_path : String
  hash : String → String
  ren : String → String → Bool
  submit : Nat → SubmitOutcome

/-- How process_file ends: `ret` is a Python return (the success path
runs a bare `return`, i.e. None); `tryAgain` is a raised
TryAgainException; `uncaughtOther` is an exception process_file does not
catch (ECReceiveException out of valid(), or an unlisted exception out
of the retry filter); `uncaughtOS` is an OSError from os.rename (only
ECReceiveException is caught around move); `modelFuel` is the model
artifact for retry-fuel exhaustion, unreachable with give_up = 5 and
fuel 5. -/
inductive PFResult where
  | ret : Option Bool → PFResult
  | tryAgain : PFResult
  | uncaughtOther : PFResult
  | uncaughtOS : PFResult
  | modelFuel : PFResult
deriving DecidableEq

/-- The publish stage of process_file (dataset.py:477-531): run the
closure under retry_n; if it returned truthy (the closure returned True
after deleting the checkpoint entry), process_file runs a bare `return`;
otherwise the combinator reported failure, so unlock and raise
TryAgainException.  An unlisted exception propagates.  The log trace
appended here is retry_go's; the info lines inside the closure are
elided (their number depends on where an attempt fails, and no claim
concerns them). -/
def process_file_publish (env : PFEnv) (fs : FileSys) (cp : Checkpoint)
    (ds : Dataset) (logs : List LogLevel) :
    FileSys × Checkpoint × PFResult × List LogLevel :=
  let r := publish_retry env.submit
  match r.1 with
  | RetryResult.ok _ =>
    (fs, cp.delete ds.data_filename, PFResult.ret none, logs ++ r.2.2)
  | RetryResult.gaveUpFalse =>
    (fs, cp.unlock ds.data_filename, PFResult.tryAgain, logs ++ r.2.2)
  | RetryResult.raised => (fs, cp, PFResult.uncaughtOther, logs ++ r.2.2)
  | RetryResult.outOfFuel => (fs, cp, PFResult.modelFuel, logs ++ r.2.2)

/-- The part of process_file from the move stage on
(dataset.py:460-531), entered with the dataset validated and locked. -/
def process_file_move (env : PFEnv) (fs : FileSys) (cp : Checkpoint)
    (ds : Dataset) (logs : List LogLevel) :
    FileSys × Checkpoint × PFResult × List LogLevel :=
  if cp.get ds.data_filename &&& CHECKPOINT_DATASET_MOVED = 0 then
    let mv := ds.move env.ren fs env.destination_path
    match mv.2.2 with
    | MoveResult.errIncomplete =>
      -- except ECReceiveException: logging.error; raise TryAgainException
      (mv.1, cp, PFResult.tryAgain, logs ++ [LogLevel.error])
    | MoveResult.errRename =>
      -- OSError from os.rename is not caught here and propagates
      (mv.1, cp, PFResult.uncaughtOS, logs)
    | MoveResult.ok =>
      -- logging.info "Dataset moved ..."; record MOVED
      process_file_publish env mv.1
        (cp.add (mv.2.1).data_filename CHECKPOINT_DATASET_MOVED) mv.2.1
        (logs ++ [LogLevel.info])
  else
    -- logging.info "Skipping move ..."
    process_file_publish env fs cp ds (logs ++ [LogLevel.info])

/-- DatasetPublisher.process_file (dataset.py:401-531).  Returns the
final filesystem, the final checkpoint, how the call ended, and the
severities of the log lines emitted (in order). -/
def process_file (env : PFEnv) (fs : FileSys) (cp : Checkpoint)
    (filename : String) : FileSys × Checkpoint × PFResult × List LogLevel :=
  -- logging.info "===== %s: start processing ====="; then for directory
  -- in [destination_path, spool_path]: logging.info "Checking if ..."
  let pdest := joinPath env.destination_path filename
  let pspool := joinPath env.spool_path filename
  let found : Option (String × List LogLevel) :=
    if fsExists fs pdest then some (pdest, [LogLevel.info, LogLevel.info])
    else if fsExists fs pspool then
      some (pspool, [LogLevel.info, LogLevel.info, LogLevel.info])
    else none
  match found with
  | none =>
    -- "Files are not present in any directory ..."; return False
    (fs, cp, PFResult.ret (some false),
      [LogLevel.info, LogLevel.info, LogLevel.info, LogLevel.info])
  | some (full_path, logs0) =>
    -- dataset = Dataset(full_path); logging.info(unicode(dataset))
    let ds := Dataset.init full_path
    let logs1 := logs0 ++ [LogLevel.info]
    if ¬ (ds.complete fs) then
      -- "Incomplete dataset ..."; return False
      (fs, cp, PFResult.ret (some false), logs1 ++ [LogLevel.info])
    else
      let l := cp.lock ds.data_filename
      if ¬ l.2 then
        -- "Unable to get a lock ..."; return False
        (fs, l.1, PFResult.ret (some false), logs1 ++ [LogLevel.warning])
      else
        let cp2 := l.1.add ds.data_filename CHECKPOINT_DATASET_EXISTS
        -- "now calculating md5sum, this might take a while ..."
        let logs2 := logs1 ++ [LogLevel.info]
        match ds.valid env.hash fs with
        | Except.error ECErr.invalidData =>
          -- "md5sum validation error ..."; unlock; return False
          (fs, cp2.unlock ds.data_filename, PFResult.ret (some false),
            logs2 ++ [LogLevel.error])
        | Except.error ECErr.ecreceive =>
          -- not caught by the except InvalidDataException clause
          (fs, cp2, PFResult.uncaughtOther, logs2)
        | Except.ok false =>
          -- "md5sum mismatch ..."; unlock; return False
          (fs, cp2.unlock ds.data_filename, PFResult.ret (some false),
            logs2 ++ [LogLevel.error])
        | Except.ok true =>
          -- "Calculated md5sum matches reference file ..."
          process_file_move env fs cp2 ds (logs2 ++ [LogLevel.info])

theorem retry_go_congr {α : Type} (op1 op2 : Nat → Attempt α) (w e g : Int) :
    ∀ (fuel t : Nat), (∀ i, t ≤ i → i < t + fuel → op1 i = op2 i) →
      retry_go op1 w e g t fuel = retry_go op2 w e g t fuel := by
  intro fuel
  induction fuel with
  | zero => intro t _; rfl
  | succ f ih =>
    intro t hop
    have h0 : op1 t = op2 t := hop t (le_refl t) (by omega)
    simp only [retry_go, h0]
    rw [ih (t + 1) (fun i h1 h2 => hop i (by omega) (by omega))]

theorem publish_retry_all_fail (submit : Nat → SubmitOutcome)
    (hfail : ∀ i, i < 5 → publishAttempt submit i = Attempt.failListed) :
    publish_retry submit
      = (RetryResult.gaveUpFalse, 5,
         [LogLevel.warning, LogLevel.warning, LogLevel.error, LogLevel.error,
          LogLevel.error]) := by
  rw [publish_retry,
    retry_go_congr (publishAttempt submit) (fun _ => Attempt.failListed)
      1 3 publish_give_up 5 0 (fun i h1 h2 => hfail i (by omega))]
  decide

theorem publish_retry_fail_once (submit : Nat → SubmitOutcome)
    (h0 : publishAttempt submit 0 = Attempt.failListed)
    (hS : ∀ i, 1 ≤ i → publishAttempt submit i = Attempt.success ()) :
    publish_retry submit = (RetryResult.ok (), 2, [LogLevel.warning]) := by
  rw [publish_retry,
    retry_go_congr (publishAttempt submit)
      (fun i => if i = 0 then Attempt.failListed else Attempt.success ())
      1 3 publish_give_up 5 0 (fun i hle hlt => by
        by_cases hi : i = 0
        · subst hi
          simpa using h0
        · rw [hS i (by omega)]
          simp [hi])]
  decide

/-- Counterexample to C1 as stated: the publish stage runs retry_n with
the DEFAULT give_up = 5 (retry_n is called without a give_up argument),
which is not ≤ 0; with a catalog that is persistently unavailable the
combinator reports give-up failure after exactly 5 attempts and
process_file raises TryAgainException — the give-up path is reachable. -/
theorem claim_c1_counterexample_gives_up :
    publish_give_up = 5
    ∧ ¬ (publish_give_up ≤ 0)
    ∧ (publish_retry (fun _ => SubmitOutcome.serviceUnavailable)).1
        = RetryResult.gaveUpFalse
    ∧ (publish_retry (fun _ => SubmitOutcome.serviceUnavailable)).2.1 = 5
    ∧ (process_file
        ⟨"/dst", "/spool", (fun _ => "0123456789abcdef0123456789abcdef"),
          (fun _ _ => true), (fun _ => SubmitOutcome.serviceUnavailable)⟩
        [("/spool/X", "DATA"), ("/spool/X.md5", "0123456789abcdef0123456789abcdef")]
        ⟨[], some (dumps [])⟩ "X").2.2.1 = PFResult.tryAgain :=
  ⟨rfl, by decide, by decide, by decide, by decide⟩

/-- C1 (amended): process_file runs the Catalog Publisher sequence under
retry_n with the default give_up = 5, not ≤ 0; the combinator's assert
holds for the defaults, and when every attempt raises a retryable error
the combinator reports failure after exactly 5 calls, whereupon
process_file unlocks the key (without deleting the checkpoint entry) and
raises TryAgainException. -/
theorem claim_c1_publish_default_give_up (env : PFEnv) (fs : FileSys)
    (cp : Checkpoint) (ds : Dataset) (logs : List LogLevel)
    (hfail : ∀ i, i < 5 → publishAttempt env.submit i = Attempt.failListed) :
    publish_give_up = 5
    ∧ ¬ (publish_give_up ≤ 0)
    ∧ retry_n (publishAttempt env.submit) 1 3 publish_give_up 5
        = Except.ok (publish_retry env.submit)
    ∧ (publish_retry env.submit).2.1 = 5
    ∧ process_file_publish env fs cp ds logs
        = (fs, cp.unlock ds.data_filename, PFResult.tryAgain,
           logs ++ [LogLevel.warning, LogLevel.warning, LogLevel.error,
             LogLevel.error, LogLevel.error]) := by
  have hr := publish_retry_all_fail env.submit hfail
  refine ⟨rfl, by decide, publish_retry_eq_retry_n env.submit, by rw [hr], ?_⟩
  simp only [process_file_publish, hr]

/-- Witness for C1 at a concrete persistently-unavailable catalog. -/
theorem claim_c1_publish_default_give_up_witness :
    publish_give_up = 5
    ∧ ¬ (publish_give_up ≤ 0)
    ∧ retry_n (publishAttempt (fun _ => SubmitOutcome.serviceUnavailable)) 1 3
        publish_give_up 5
        = Except.ok (publish_retry (fun _ => SubmitOutcome.serviceUnavailable))
    ∧ (publish_retry (fun _ => SubmitOutcome.serviceUnavailable)).2.1 = 5
    ∧ process_file_publish
        ⟨"/dst", "/spool", (fun _ => "h"), (fun _ _ => true),
          (fun _ => SubmitOutcome.serviceUnavailable)⟩
        [] ⟨[("X", 7)], some (dumps [("X", 7)])⟩ ⟨"/dst/X", "/dst/X.md5"⟩ []
        = ([], (Checkpoint.unlock ⟨[("X", 7)], some (dumps [("X", 7)])⟩
            (Dataset.data_filename ⟨"/dst/X", "/dst/X.md5"⟩)),
           PFResult.tryAgain,
           [] ++ [LogLevel.warning, LogLevel.warning, LogLevel.error,
             LogLevel.error, LogLevel.error]) := by
  have h := claim_c1_publish_default_give_up
    ⟨"/dst", "/spool", (fun _ => "h"), (fun _ _ => true),
      (fun _ => SubmitOutcome.serviceUnavailable)⟩
    [] ⟨[("X", 7)], some (dumps [("X", 7)])⟩ ⟨"/dst/X", "/dst/X.md5"⟩ []
    (by decide)
  exact h

/-- Counterexample to C4 as stated: ECReceiveProductstatusException is a
member of the publish stage's retry filter, so it IS retried: a catalog
that raises it once and then recovers leads to a successful publish with
the checkpoint entry deleted, not to an immediate resubmittable
condition. -/
theorem claim_c4_counterexample_schema_retried :
    publish_retryable SubmitOutcome.productstatusError = true
    ∧ (process_file
        ⟨"/dst", "/spool", (fun _ => "0123456789abcdef0123456789abcdef"),
          (fun _ _ => true),
          (fun i => if i = 0 then SubmitOutcome.productstatusError
            else SubmitOutcome.success)⟩
        [("/spool/X", "DATA"), ("/spool/X.md5", "0123456789abcdef0123456789abcdef")]
        ⟨[], some (dumps [])⟩ "X").2.2.1 = PFResult.ret none
    ∧ (process_file
        ⟨"/dst", "/spool", (fun _ => "0123456789abcdef0123456789abcdef"),
          (fun _ _ => true),
          (fun i => if i = 0 then SubmitOutcome.productstatusError
            else SubmitOutcome.success)⟩
        [("/spool/X", "DATA"), ("/spool/X.md5", "0123456789abcdef0123456789abcdef")]
        ⟨[], some (dumps [])⟩ "X").2.2.1 ≠ PFResult.tryAgain
    ∧ "X" ∉ (process_file
        ⟨"/dst", "/spool", (fun _ => "0123456789abcdef0123456789abcdef"),
          (fun _ _ => true),
          (fun i => if i = 0 then SubmitOutcome.productstatusError
            else SubmitOutcome.success)⟩
        [("/spool/X", "DATA"), ("/spool/X.md5", "0123456789abcdef0123456789abcdef")]
        ⟨[], some (dumps [])⟩ "X").2.1.keys :=
  ⟨rfl, by decide, by decide, by decide⟩

/-- C4 (amended): a missing referenced format/product entity raises
ECReceiveProductstatusException, which IS in the publish stage's retry
filter and is retried exactly like catalog unavailability (up to the
default give-up of 5): if the catalog recovers within the retries the
publish succeeds and the checkpoint entry is deleted; if the error
persists for all 5 attempts, the worker unlocks the key and raises
TryAgainException without deleting the checkpoint entry, so the job is
resubmitted. -/
theorem claim_c4_schema_error_retried (env : PFEnv) (fs : FileSys)
    (cp : Checkpoint) (ds : Dataset) (logs : List LogLevel) :
    publish_retryable SubmitOutcome.productstatusError = true
    ∧ publish_retryable SubmitOutcome.serviceUnavailable = true
    ∧ publish_retryable SubmitOutcome.otherError = false
    ∧ (env.submit 0 = SubmitOutcome.productstatusError →
        (∀ i, 1 ≤ i → env.submit i = SubmitOutcome.success) →
        process_file_publish env fs cp ds logs
          = (fs, cp.delete ds.data_filename, PFResult.ret none,
             logs ++ [LogLevel.warning]))
    ∧ ((∀ i, i < 5 → env.submit i = SubmitOutcome.productstatusError) →
        process_file_publish env fs cp ds logs
          = (fs, cp.unlock ds.data_filename, PFResult.tryAgain,
             logs ++ [LogLevel.warning, LogLevel.warning, LogLevel.error,
               LogLevel.error, LogLevel.error])) := by
  refine ⟨rfl, rfl, rfl, fun h0 hS => ?_, fun hall => ?_⟩
  · have hr := publish_retry_fail_once env.submit
      (by simp [publishAttempt, h0, publish_retryable])
      (fun i hi => by simp [publishAttempt, hS i hi])
    simp only [process_file_publish, hr]
  · have hr := publish_retry_all_fail env.submit
      (fun i hi => by simp [publishAttempt, hall i hi, publish_retryable])
    simp only [process_file_publish, hr]

/-- Witness for C4: the once-failing catalog and the persistently
failing catalog, at concrete states. -/
theorem claim_c4_schema_error_retried_witness :
    process_file_publish
        ⟨"/dst", "/spool", (fun _ => "h"), (fun _ _ => true),
          (fun i => if i = 0 then SubmitOutcome.productstatusError
            else SubmitOutcome.success)⟩
        [] ⟨[("X", 7)], some (dumps [("X", 7)])⟩ ⟨"/dst/X", "/dst/X.md5"⟩ []
      = ([], (Checkpoint.delete ⟨[("X", 7)], some (dumps [("X", 7)])⟩
          (Dataset.data_filename ⟨"/dst/X", "/dst/X.md5"⟩)),
         PFResult.ret none, [] ++ [LogLevel.warning])
    ∧ process_file_publish
        ⟨"/dst", "/spool", (fun _ => "h"), (fun _ _ => true),
          (fun _ => SubmitOutcome.productstatusError)⟩
        [] ⟨[("X", 7)], some (dumps [("X", 7)])⟩ ⟨"/dst/X", "/dst/X.md5"⟩ []
      = ([], (Checkpoint.unlock ⟨[("X", 7)], some (dumps [("X", 7)])⟩
          (Dataset.data_filename ⟨"/dst/X", "/dst/X.md5"⟩)),
         PFResult.tryAgain,
         [] ++ [LogLevel.warning, LogLevel.warning, LogLevel.error,
           LogLevel.error, LogLevel.error]) := by
  have h1 := claim_c4_schema_error_retried
    ⟨"/dst", "/spool", (fun _ => "h"), (fun _ _ => true),
      (fun i => if i = 0 then SubmitOutcome.productstatusError
        else SubmitOutcome.success)⟩
    [] ⟨[("X", 7)], some (dumps [("X", 7)])⟩ ⟨"/dst/X", "/dst/X.md5"⟩ []
  have h2 := claim_c4_schema_error_retried
    ⟨"/dst", "/spool", (fun _ => "h"), (fun _ _ => true),
      (fun _ => SubmitOutcome.productstatusError)⟩
    [] ⟨[("X", 7)], some (dumps [("X", 7)])⟩ ⟨"/dst/X", "/dst/X.md5"⟩ []
  exact ⟨h1.2.2.2.1 rfl (fun i hi => by simp [Nat.pos_iff_ne_zero.mp hi]),
    h2.2.2.2.2 (fun i _ => rfl)⟩

theorem andNot_or_or (v : Nat) (hv : v &&& 4 = 0) :
    andNot ((v ||| 4) ||| 1) 4 = v ||| 1 := by
  apply Nat.eq_of_testBit_eq
  intro i
  have hvi : (v.testBit i && Nat.testBit 4 i) = false := by
    have h2 := congrArg (fun n => Nat.testBit n i) hv
    simp only [Nat.testBit_and, Nat.zero_testBit] at h2
    exact h2
  have h41 : (Nat.testBit 4 i && Nat.testBit 1 i) = false := by
    have h2 := congrArg (fun n => Nat.testBit n i) (show 4 &&& 1 = 0 from rfl)
    simp only [Nat.testBit_and, Nat.zero_testBit] at h2
    exact h2
  simp only [andNot, Nat.testBit_xor, Nat.testBit_and, Nat.testBit_or]
  cases hb : v.testBit i <;> cases hc : Nat.testBit 4 i <;>
    cases hd : Nat.testBit 1 i <;> simp_all

/-- Counterexample to C8 as stated: the checksum-mismatch abort logs the
mismatch at ERROR severity, not warning — the abort trace of a concrete
mismatching dataset contains no warning-level line. -/
theorem claim_c8_counterexample_log_level :
    (process_file
        ⟨"/dst", "/spool", (fun _ => "0123456789abcdef0123456789abcdef"),
          (fun _ _ => true), (fun _ => SubmitOutcome.success)⟩
        [("/spool/X", "DATA"),
         ("/spool/X.md5", "ffffffffffffffffffffffffffffffff")]
        ⟨[], some (dumps [])⟩ "X").2.2.1 = PFResult.ret (some false)
    ∧ (process_file
        ⟨"/dst", "/spool", (fun _ => "0123456789abcdef0123456789abcdef"),
          (fun _ _ => true), (fun _ => SubmitOutcome.success)⟩
        [("/spool/X", "DATA"),
         ("/spool/X.md5", "ffffffffffffffffffffffffffffffff")]
        ⟨[], some (dumps [])⟩ "X").2.2.2
      = [LogLevel.info, LogLevel.info, LogLevel.info, LogLevel.info,
         LogLevel.info, LogLevel.error]
    ∧ LogLevel.warning ∉ (process_file
        ⟨"/dst", "/spool", (fun _ => "0123456789abcdef0123456789abcdef"),
          (fun _ _ => true), (fun _ => SubmitOutcome.success)⟩
        [("/spool/X", "DATA"),
         ("/spool/X.md5", "ffffffffffffffffffffffffffffffff")]
        ⟨[], some (dumps [])⟩ "X").2.2.2
    ∧ "X" ∈ (process_file
        ⟨"/dst", "/spool", (fun _ => "0123456789abcdef0123456789abcdef"),
          (fun _ _ => true), (fun _ => SubmitOutcome.success)⟩
        [("/spool/X", "DATA"),
         ("/spool/X.md5", "ffffffffffffffffffffffffffffffff")]
        ⟨[], some (dumps [])⟩ "X").2.1.keys :=
  ⟨by decide, by decide, by decide, by decide⟩

/-- C8 (amended): on a checksum mismatch — and likewise on a truncated
sidecar — process_file unlocks the dataset's key and returns False,
logging the failure at ERROR (not warning) severity; it does not delete
the checkpoint entry and touches no file: the filesystem is unchanged,
the key's entry keeps the freshly-set EXISTS flag on top of its previous
mask, and only LOCKED (set by this very call) is cleared again. -/
theorem claim_c8_integrity_abort (hashf : String → String)
    (renf : String → String → Bool) (submitf : Nat → SubmitOutcome)
    (sc dc : String) (v : Nat) (d0 : Option String)
    (hv : v &&& CHECKPOINT_DATASET_LOCKED = 0)
    (hvalid : Dataset.valid ⟨"/spool/X", "/spool/X.md5"⟩ hashf
        [("/spool/X", dc), ("/spool/X.md5", sc)] = Except.ok false
      ∨ Dataset.valid ⟨"/spool/X", "/spool/X.md5"⟩ hashf
        [("/spool/X", dc), ("/spool/X.md5", sc)]
          = Except.error ECErr.invalidData) :
    (process_file ⟨"/dst", "/spool", hashf, renf, submitf⟩
        [("/spool/X", dc), ("/spool/X.md5", sc)] ⟨[("X", v)], d0⟩ "X").1
      = [("/spool/X", dc), ("/spool/X.md5", sc)]
    ∧ (process_file ⟨"/dst", "/spool", hashf, renf, submitf⟩
        [("/spool/X", dc), ("/spool/X.md5", sc)] ⟨[("X", v)], d0⟩ "X").2.2.1
      = PFResult.ret (some false)
    ∧ (process_file ⟨"/dst", "/spool", hashf, renf, submitf⟩
        [("/spool/X", dc), ("/spool/X.md5", sc)] ⟨[("X", v)], d0⟩ "X").2.2.2
      = [LogLevel.info, LogLevel.info, LogLevel.info, LogLevel.info,
         LogLevel.info, LogLevel.error]
    ∧ (process_file ⟨"/dst", "/spool", hashf, renf, submitf⟩
        [("/spool/X", dc), ("/spool/X.md5", sc)] ⟨[("X", v)], d0⟩ "X").2.1.keys
      = ["X"]
    ∧ (process_file ⟨"/dst", "/spool", hashf, renf, submitf⟩
        [("/spool/X", dc), ("/spool/X.md5", sc)] ⟨[("X", v)], d0⟩ "X").2.1.get "X"
      = v ||| CHECKPOINT_DATASET_EXISTS := by
  have hlock : (Checkpoint.lock ⟨[("X", v)], d0⟩ "X")
      = (Checkpoint.add ⟨[("X", v)], d0⟩ "X" CHECKPOINT_DATASET_LOCKED, true) := by
    rw [Checkpoint.lock]
    rw [if_neg (by
      rw [show (Checkpoint.get ⟨[("X", v)], d0⟩ "X") = v from rfl]
      simp [CHECKPOINT_DATASET_LOCKED] at hv ⊢
      exact hv)]
  have hrun : process_file ⟨"/dst", "/spool", hashf, renf, submitf⟩
      [("/spool/X", dc), ("/spool/X.md5", sc)] ⟨[("X", v)], d0⟩ "X"
      = ([("/spool/X", dc), ("/spool/X.md5", sc)],
         ((Checkpoint.add ⟨[("X", v)], d0⟩ "X" CHECKPOINT_DATASET_LOCKED).add "X"
            CHECKPOINT_DATASET_EXISTS).unlock "X",
         PFResult.ret (some false),
         [LogLevel.info, LogLevel.info, LogLevel.info, LogLevel.info,
          LogLevel.info, LogLevel.error]) := by
    rw [process_file]
    rw [show fsExists [("/spool/X", dc), ("/spool/X.md5", sc)]
        (joinPath "/dst" "X") = false from rfl]
    rw [show fsExists [("/spool/X", dc), ("/spool/X.md5", sc)]
        (joinPath "/spool" "X") = true from rfl]
    simp only [Bool.false_eq_true, if_false, if_true]
    rw [show Dataset.init (joinPath "/spool" "X")
        = (⟨"/spool/X", "/spool/X.md5"⟩ : Dataset) from rfl]
    rw [show Dataset.complete ⟨"/spool/X", "/spool/X.md5"⟩
        [("/spool/X", dc), ("/spool/X.md5", sc)] = true from rfl]
    rw [show Dataset.data_filename (⟨"/spool/X", "/spool/X.md5"⟩ : Dataset)
        = "X" from rfl]
    rw [hlock]
    simp only [Bool.not_true, Bool.true_eq_false, if_false, not_true_eq_false]
    rcases hvalid with hval | hval <;> rw [hval] <;> rfl
  rw [hrun]
  refine ⟨rfl, rfl, rfl, rfl, ?_⟩
  rw [Checkpoint.unlock, Checkpoint.get_subtract_self, Checkpoint.get_add_self,
    Checkpoint.get_add_self]
  rw [show (Checkpoint.get ⟨[("X", v)], d0⟩ "X") = v from rfl]
  exact andNot_or_or v hv

/-- Witness for C8 at a concrete mismatching dataset carrying a
pre-existing EXISTS flag. -/
theorem claim_c8_integrity_abort_witness :
    (process_file ⟨"/dst", "/spool", (fun _ => "0123456789abcdef0123456789abcdef"),
        (fun _ _ => true), (fun _ => SubmitOutcome.success)⟩
        [("/spool/X", "DATA"), ("/spool/X.md5", "ffffffffffffffffffffffffffffffff")]
        ⟨[("X", 1)], some (dumps [("X", 1)])⟩ "X").1
      = [("/spool/X", "DATA"), ("/spool/X.md5", "ffffffffffffffffffffffffffffffff")]
    ∧ (process_file ⟨"/dst", "/spool", (fun _ => "0123456789abcdef0123456789abcdef"),
        (fun _ _ => true), (fun _ => SubmitOutcome.success)⟩
        [("/spool/X", "DATA"), ("/spool/X.md5", "ffffffffffffffffffffffffffffffff")]
        ⟨[("X", 1)], some (dumps [("X", 1)])⟩ "X").2.2.1 = PFResult.ret (some false)
    ∧ (process_file ⟨"/dst", "/spool", (fun _ => "0123456789abcdef0123456789abcdef"),
        (fun _ _ => true), (fun _ => SubmitOutcome.success)⟩
        [("/spool/X", "DATA"), ("/spool/X.md5", "ffffffffffffffffffffffffffffffff")]
        ⟨[("X", 1)], some (dumps [("X", 1)])⟩ "X").2.2.2
      = [LogLevel.info, LogLevel.info, LogLevel.info, LogLevel.info,
         LogLevel.info, LogLevel.error]
    ∧ (process_file ⟨"/dst", "/spool", (fun _ => "0123456789abcdef0123456789abcdef"),
        (fun _ _ => true), (fun _ => SubmitOutcome.success)⟩
        [("/spool/X", "DATA"), ("/spool/X.md5", "ffffffffffffffffffffffffffffffff")]
        ⟨[("X", 1)], some (dumps [("X", 1)])⟩ "X").2.1.keys = ["X"]
    ∧ (process_file ⟨"/dst", "/spool", (fun _ => "0123456789abcdef0123456789abcdef"),
        (fun _ _ => true), (fun _ => SubmitOutcome.success)⟩
        [("/spool/X", "DATA"), ("/spool/X.md5", "ffffffffffffffffffffffffffffffff")]
        ⟨[("X", 1)], some (dumps [("X", 1)])⟩ "X").2.1.get "X"
      = 1 ||| CHECKPOINT_DATASET_EXISTS := by
  have h := claim_c8_integrity_abort
    (fun _ => "0123456789abcdef0123456789abcdef") (fun _ _ => true)
    (fun _ => SubmitOutcome.success) "ffffffffffffffffffffffffffffffff" "DATA"
    1 (some (dumps [("X", 1)])) (by decide) (Or.inl rfl)
  exact h

end ECReceive
